import Mathlib

/-!
Verification development for the MySQL schema extractor / importer library
(`src/schema/MySQLSchemaExtractor.ts`, `src/schema/MySQLSchemaImporter.ts`,
`src/schema/types.ts`).

The TypeScript sources are shallowly embedded:

* every `interface` of `types.ts` becomes a Lean structure with the same
  fields (TS `x?: T` becomes `Option T`, `string | null` becomes
  `Option String`, numbers that are only ever integral become `Int`);
* a runtime `Date` value is modelled by `JsDate`, which carries the string
  its `toISOString()` method returns; a field whose *declared* type is
  `Date` is modelled by `DateVal`, because after `JSON.parse` such a field
  actually holds a plain string at runtime even though the TS type still
  says `Date`;
* the SQL connection (`ZSQLService.query`) is the only effect.  A run is
  modelled by the ordered list of issued statements (`QueryEvent`), and the
  database's reaction is an `Oracle`: a function from the history so far
  and the statement text to `none` (statement succeeds) or `some msg`
  (statement throws an error with message `msg`);
* a `throw`/`try`/`catch` control flow is modelled with an explicit
  `Option String` error channel, and an `async` public method that may
  reject is given an `Except String` result type.
-/

/-! ## String helpers (JS string primitives used by the sources) -/

/-- JS `String.prototype.startsWith`, on character lists. -/
def startsWithL : List Char → List Char → Bool
  | _, [] => true
  | [], _ :: _ => false
  | a :: as, b :: bs => a == b && startsWithL as bs

/-- JS `String.prototype.includes`, on character lists. -/
def containsSub : List Char → List Char → Bool
  | [], pat => startsWithL [] pat
  | c :: rest, pat => startsWithL (c :: rest) pat || containsSub rest pat

/-- JS `hay.includes(needle)`. -/
def strIncludes (hay needle : String) : Bool :=
  containsSub hay.toList needle.toList

/-- JS `hay.startsWith(needle)`. -/
def strStartsWith (hay needle : String) : Bool :=
  startsWithL hay.toList needle.toList

/-- Case-insensitive `startsWithL` (used for the `/i` regexp flag). -/
def startsWithLCI : List Char → List Char → Bool
  | _, [] => true
  | [], _ :: _ => false
  | a :: as, b :: bs => a.toLower == b.toLower && startsWithLCI as bs

/-- JS `s.replace(pat, repl)` with a *string* pattern: replaces only the
first occurrence (helper for `.replace('T', ' ')` in `createEvent`). -/
def replaceFirstL (repl : List Char) : List Char → List Char → List Char
  | [], _ => []
  | c :: rest, pat =>
    if startsWithL (c :: rest) pat && !pat.isEmpty then
      repl ++ (c :: rest).drop pat.length
    else
      c :: replaceFirstL repl rest pat

/-- JS `s.replace("T", " ")`-style first-occurrence replacement. -/
def replaceFirst (s pat repl : String) : String :=
  ⟨replaceFirstL repl.toList s.toList pat.toList⟩

/-- JS `\w` character class: `[A-Za-z0-9_]`. -/
def isWordChar (c : Char) : Bool :=
  (c.isAlpha || c.isDigit) || c == ('_' : Char)

/-- JS `s.toLowerCase()` (character-map formulation). -/
def strToLower (s : String) : String :=
  ⟨s.toList.map Char.toLower⟩

/-- JS `s.toUpperCase()` (character-map formulation). -/
def strToUpper (s : String) : String :=
  ⟨s.toList.map Char.toUpper⟩

/-- JS `s.trim()`: strip whitespace from both ends. -/
def strTrim (s : String) : String :=
  ⟨((s.toList.dropWhile Char.isWhitespace).reverse.dropWhile
      Char.isWhitespace).reverse⟩

/-- JS `s.replace(/pat/g, repl)` with a literal pattern: global,
non-overlapping, left to right.  `fuel` is always supplied as the length
of the scanned list, which suffices because every step consumes at least
one character. -/
def replaceAllL (pat repl : List Char) : Nat → List Char → List Char
  | 0, chars => chars
  | _ + 1, [] => []
  | fuel + 1, c :: rest =>
    if startsWithL (c :: rest) pat && !pat.isEmpty then
      repl ++ replaceAllL pat repl fuel ((c :: rest).drop pat.length)
    else
      c :: replaceAllL pat repl fuel rest

def strReplaceAll (s pat repl : String) : String :=
  ⟨replaceAllL pat.toList repl.toList s.toList.length s.toList⟩

/-- JS `s.split(sep)` with a non-empty literal separator. -/
def splitOnAux (sep : List Char) : Nat → List Char → List Char → List (List Char)
  | 0, acc, chars => [acc ++ chars]
  | _ + 1, acc, [] => [acc]
  | fuel + 1, acc, c :: rest =>
    if startsWithL (c :: rest) sep && !sep.isEmpty then
      acc :: splitOnAux sep fuel [] ((c :: rest).drop sep.length)
    else
      splitOnAux sep fuel (acc ++ [c]) rest

def strSplitOn (s sep : String) : List String :=
  (splitOnAux sep.toList s.toList.length [] s.toList).map (⟨·⟩)

/-- One scanning step of a global regexp replace of `pat ++ "."` by
`repl ++ "."` where the match site must start at a JS word boundary `\b`
(used by `createView` for the bare `sourceDb.` → `targetDb.` rewrite).
`prev` is the character of the *original* string just before the current
position (`none` at the start); `fuel` bounds the recursion and is always
supplied as the length of the scanned list, which suffices because every
step consumes at least one character. -/
def replaceBoundaryAux (pat repl : List Char) :
    Nat → Option Char → List Char → List Char
  | 0, _, chars => chars
  | _ + 1, _, [] => []
  | fuel + 1, prev, c :: rest =>
    let boundary :=
      match pat.head? with
      | none => false
      | some p0 =>
        match prev with
        | none => isWordChar p0
        | some pc => isWordChar pc != isWordChar p0
    if boundary && startsWithL (c :: rest) pat then
      repl ++
        replaceBoundaryAux pat repl fuel (pat.getLast?.getD c)
          ((c :: rest).drop pat.length)
    else
      c :: replaceBoundaryAux pat repl fuel (some c) rest

/-- JS `s.replace(new RegExp("\\b" ++ db ++ "\\.", "g"), target ++ ".")`:
every occurrence of `db ++ "."` that starts at a word boundary is replaced
by `target ++ "."`. -/
def replaceUnquotedDb (s db target : String) : String :=
  ⟨replaceBoundaryAux (db.toList ++ [('.' : Char)])
      (target.toList ++ [('.' : Char)]) s.toList.length none s.toList⟩

/-! ## Runtime dates

`JsDate` is a runtime `Date` object, identified by the string its
`toISOString()` returns.  `DateVal` is the runtime content of a field whose
declared TS type is `Date`: either a genuine `Date`, or — after a schema
has travelled through `JSON.parse` — a plain string. -/

structure JsDate where
  iso : String
deriving DecidableEq

inductive DateVal where
  | date (d : JsDate)
  | str (s : String)
deriving DecidableEq

/-- JS truthiness of a `Date`-typed field: an object is truthy, a string is
truthy iff non-empty. -/
def DateVal.truthy : DateVal → Bool
  | .date _ => true
  | .str s => !(s == "")

/-! ## Data model (`types.ts`) -/

structure ColumnDefinition where
  name : String
  type : String
  nullable : Bool
  defaultValue : Option String
  extra : String
  comment : String
  characterSet : Option String
  collation : Option String
  key : Option String
deriving DecidableEq

structure IndexDefinition where
  name : String
  tableName : String
  columnName : String
  nonUnique : Bool
  indexType : String
  seqInIndex : Int
  collation : Option String
  cardinality : Option Int
  comment : String
deriving DecidableEq

structure ForeignKeyDefinition where
  constraintName : String
  tableName : String
  columnName : String
  referencedTableName : String
  referencedColumnName : String
  updateRule : String
  deleteRule : String
deriving DecidableEq

structure TableDefinition where
  name : String
  columns : List ColumnDefinition
  indexes : List IndexDefinition
  foreignKeys : List ForeignKeyDefinition
  engine : String
  collation : String
  comment : String
  createStatement : Option String
deriving DecidableEq

structure ViewDefinition where
  name : String
  definition : String
  checkOption : String
  isUpdatable : Bool
  definer : String
  securityType : String
  characterSetClient : String
  collationConnection : String
deriving DecidableEq

structure ProcedureDefinition where
  name : String
  type : String
  definition : String
  definer : String
  created : DateVal
  modified : DateVal
  sqlDataAccess : String
  isDeterministic : Bool
  securityType : String
  parameterList : Option String
  returns : Option String
  comment : String
deriving DecidableEq

/-- Interface `FunctionDefinition extends ProcedureDefinition` with `returns`
required. -/
structure FunctionDefinition where
  name : String
  type : String
  definition : String
  definer : String
  created : DateVal
  modified : DateVal
  sqlDataAccess : String
  isDeterministic : Bool
  securityType : String
  parameterList : Option String
  returns : String
  comment : String
deriving DecidableEq

structure TriggerDefinition where
  name : String
  tableName : String
  event : String
  timing : String
  statement : String
  definer : String
  created : DateVal
  sqlMode : String
  characterSetClient : String
  collationConnection : String
  databaseCollation : String
deriving DecidableEq

structure EventDefinition where
  name : String
  definer : String
  timeZone : String
  type : String
  executeAt : Option DateVal
  intervalValue : Option String
  intervalField : Option String
  status : String
  onCompletion : String
  definition : String
  comment : String
deriving DecidableEq

structure DatabaseSchema where
  databaseName : String
  tables : List TableDefinition
  views : List ViewDefinition
  procedures : List ProcedureDefinition
  functions : List FunctionDefinition
  triggers : List TriggerDefinition
  events : List EventDefinition
  characterSet : String
  collation : String
  extractedAt : DateVal
  version : Option String
deriving DecidableEq

/-- The inline record type of `SchemaComparison.modifiedTables` entries. -/
structure TableModification where
  tableName : String
  addedColumns : List String
  removedColumns : List String
  modifiedColumns : List String
deriving DecidableEq

structure SchemaComparison where
  addedTables : List String
  removedTables : List String
  modifiedTables : List TableModification
  addedViews : List String
  removedViews : List String
  modifiedViews : List String
deriving DecidableEq

/-! ## `MySQLSchemaExtractor.mysqlTypeToTypeScript` -/

/-- The `.*?` capture of `/enum\((.*?)\)/`: the characters up to the first
`)`; fails when no `)` occurs, or when a newline (which `.` cannot match)
comes first. -/
def takeUntilParen : List Char → Option (List Char)
  | [] => none
  | c :: rest =>
    if c == (')' : Char) then some []
    else if c == ('\n' : Char) then none
    else (takeUntilParen rest).map (c :: ·)

/-- Model of `mysqlType.match(/enum\((.*?)\)/i)`: the capture group of the leftmost
position where `enum(` matches case-insensitively and a closing `)`
follows on the same line. -/
def enumCapture : List Char → Option (List Char)
  | [] => none
  | c :: rest =>
    if startsWithLCI (c :: rest) "enum(".toList then
      match takeUntilParen ((c :: rest).drop 5) with
      | some cap => some cap
      | none => enumCapture rest
    else enumCapture rest

/-- Method `MySQLSchemaExtractor.mysqlTypeToTypeScript`, line for line: the
substring tests run on the lower-cased raw type, in the source's order
(numbers before booleans), and the enum branch rebuilds the string-literal
union from the regexp capture. -/
def mysqlTypeToTypeScript (mysqlType : String) : String :=
  let type := strToLower mysqlType
  if strIncludes type "int" || strIncludes type "decimal" ||
      strIncludes type "float" || strIncludes type "double" then
    "number"
  else if strIncludes type "tinyint(1)" || strIncludes type "boolean" ||
      strIncludes type "bool" then
    "boolean"
  else if strIncludes type "date" || strIncludes type "time" ||
      strIncludes type "timestamp" then
    "Date | string"
  else if strIncludes type "json" then
    "any"
  else if strIncludes type "blob" || strIncludes type "binary" then
    "Buffer"
  else if strIncludes type "enum" then
    match enumCapture mysqlType.toList with
    | some cap =>
      let values := (strSplitOn (String.mk cap) ",").map
        (fun v => strReplaceAll (strTrim v) "\x27" "")
      String.intercalate " | " (values.map (fun v => "\x27" ++ v ++ "\x27"))
    | none => "string"
  else
    "string"

/-! ## `MySQLSchemaExtractor.compareSchemas` -/

/-- JS `new Set(xs)` iterated with `for..of`: the first occurrences, in
insertion order. -/
def dedupFirstAux (seen : List String) : List String → List String
  | [] => []
  | x :: xs =>
    if seen.contains x then dedupFirstAux seen xs
    else x :: dedupFirstAux (x :: seen) xs

def dedupFirst (l : List String) : List String := dedupFirstAux [] l

/-- The per-table body of `compareSchemas`' modified-tables loop: given
the tables found under `tableName` in the old and new schemas, the
column-level diff, or `none` when no column was added, removed or
modified.  The column test
`JSON.stringify(oldCol) !== JSON.stringify(newCol)` is structural
inequality of the two records: both serialize with the same key order, and
the serialization is injective on the record fields. -/
def tableDiffEntry (oldTable newTable : TableDefinition)
    (tableName : String) : Option TableModification :=
  let oldColNames := dedupFirst (oldTable.columns.map (·.name))
  let newColNames := dedupFirst (newTable.columns.map (·.name))
  let addedColumns := newColNames.filter (fun c => !(oldColNames.contains c))
  let modifiedColumns := newColNames.filter (fun c =>
    oldColNames.contains c &&
      (match oldTable.columns.find? (fun cc => cc.name == c),
             newTable.columns.find? (fun cc => cc.name == c) with
       | some oldCol, some newCol => !(oldCol == newCol)
       | _, _ => false))
  let removedColumns := oldColNames.filter (fun c => !(newColNames.contains c))
  if addedColumns.length > 0 || removedColumns.length > 0 ||
      modifiedColumns.length > 0 then
    some ⟨tableName, addedColumns, removedColumns, modifiedColumns⟩
  else
    none

/-- Method `MySQLSchemaExtractor.compareSchemas`.  The source's
`for (const x of someSet)` loops that conditionally `push` become
`filter`/`filterMap` over the deduplicated name lists; `.find(...)!` is
`List.find?` (the non-null assertion is justified because the name was
taken from the same list). -/
def compareSchemas (oldSchema newSchema : DatabaseSchema) : SchemaComparison :=
  let oldTableNames := dedupFirst (oldSchema.tables.map (·.name))
  let newTableNames := dedupFirst (newSchema.tables.map (·.name))
  let addedTables := newTableNames.filter (fun n => !(oldTableNames.contains n))
  let removedTables := oldTableNames.filter (fun n => !(newTableNames.contains n))
  let modifiedTables := newTableNames.filterMap (fun tableName =>
    if oldTableNames.contains tableName then
      match oldSchema.tables.find? (fun t => t.name == tableName),
            newSchema.tables.find? (fun t => t.name == tableName) with
      | some oldTable, some newTable =>
        tableDiffEntry oldTable newTable tableName
      | _, _ => none
    else none)
  let oldViewNames := dedupFirst (oldSchema.views.map (·.name))
  let newViewNames := dedupFirst (newSchema.views.map (·.name))
  let addedViews := newViewNames.filter (fun n => !(oldViewNames.contains n))
  let removedViews := oldViewNames.filter (fun n => !(newViewNames.contains n))
  let modifiedViews := oldViewNames.filter (fun n =>
    newViewNames.contains n &&
      (match oldSchema.views.find? (fun v => v.name == n),
             newSchema.views.find? (fun v => v.name == n) with
       | some oldView, some newView => !(oldView.definition == newView.definition)
       | _, _ => false))
  ⟨addedTables, removedTables, modifiedTables, addedViews, removedViews, modifiedViews⟩

/-! ## JSON documents (`exportToJSON` / `loadSchemaFromJSON`)

`exportToJSON` is `JSON.stringify(schemaData, null, 2)` and
`loadSchemaFromJSON` is `JSON.parse(jsonString) as DatabaseSchema`.  The
serialized text is modelled up to JSON-document identity by the `Json`
value it parses to: `JSON.stringify` maps strings/booleans/integral
numbers/arrays to themselves, keeps `null`-valued fields, omits
`undefined`-valued (optional) fields, and serializes a `Date` through its
`toJSON`, i.e. `toISOString()`.  The `as DatabaseSchema` cast performs no
conversion, so a `Date`-declared field of the loaded schema holds the
parsed *string* (`DateVal.str`). -/

inductive Json where
  | null : Json
  | bool (b : Bool) : Json
  | num (n : Int) : Json
  | str (s : String) : Json
  | arr (elems : List Json) : Json
  | obj (fields : List (String × Json)) : Json

def lookupKey : List (String × Json) → String → Option Json
  | [], _ => none
  | (k, v) :: rest, key => if k == key then some v else lookupKey rest key

def asStr : Option Json → Option String
  | some (.str s) => some s
  | _ => none

def asBool : Option Json → Option Bool
  | some (.bool b) => some b
  | _ => none

def asInt : Option Json → Option Int
  | some (.num n) => some n
  | _ => none

/-- A `string | null` field (always present, possibly `null`). -/
def asNullableStr : Option Json → Option (Option String)
  | some .null => some none
  | some (.str s) => some (some s)
  | _ => none

/-- An optional (`?:`) string field: an absent key reads as `undefined`. -/
def asOptStr : Option Json → Option (Option String)
  | none => some none
  | some (.str s) => some (some s)
  | _ => none

def asOptInt : Option Json → Option (Option Int)
  | none => some none
  | some (.num n) => some (some n)
  | _ => none

/-- A `Date`-declared field after `JSON.parse`: always a plain string. -/
def asDateVal : Option Json → Option DateVal
  | some (.str s) => some (.str s)
  | _ => none

def asOptDateVal : Option Json → Option (Option DateVal)
  | none => some none
  | some (.str s) => some (some (.str s))
  | _ => none

def encodeOptStr (k : String) : Option String → List (String × Json)
  | some s => [(k, .str s)]
  | none => []

def encodeOptInt (k : String) : Option Int → List (String × Json)
  | some n => [(k, .num n)]
  | none => []

/-- Effect of `JSON.stringify` on a `Date`-declared field: a genuine `Date`
serializes through `toISOString()`, a string serializes as itself. -/
def encodeDateVal : DateVal → Json
  | .date d => .str d.iso
  | .str s => .str s

def encodeOptDateVal (k : String) : Option DateVal → List (String × Json)
  | some v => [(k, encodeDateVal v)]
  | none => []

def encodeColumn (c : ColumnDefinition) : Json :=
  .obj ([("name", .str c.name), ("type", .str c.type),
    ("nullable", .bool c.nullable),
    ("defaultValue", match c.defaultValue with
      | some s => .str s
      | none => .null),
    ("extra", .str c.extra), ("comment", .str c.comment)]
    ++ encodeOptStr "characterSet" c.characterSet
    ++ encodeOptStr "collation" c.collation
    ++ encodeOptStr "key" c.key)

def decodeColumn : Json → Option ColumnDefinition
  | .obj kvs => do
    let name ← asStr (lookupKey kvs "name")
    let type ← asStr (lookupKey kvs "type")
    let nullable ← asBool (lookupKey kvs "nullable")
    let defaultValue ← asNullableStr (lookupKey kvs "defaultValue")
    let extra ← asStr (lookupKey kvs "extra")
    let comment ← asStr (lookupKey kvs "comment")
    let characterSet ← asOptStr (lookupKey kvs "characterSet")
    let collation ← asOptStr (lookupKey kvs "collation")
    let key ← asOptStr (lookupKey kvs "key")
    some ⟨name, type, nullable, defaultValue, extra, comment,
      characterSet, collation, key⟩
  | _ => none

def encodeIndex (i : IndexDefinition) : Json :=
  .obj ([("name", .str i.name), ("tableName", .str i.tableName),
    ("columnName", .str i.columnName), ("nonUnique", .bool i.nonUnique),
    ("indexType", .str i.indexType), ("seqInIndex", .num i.seqInIndex)]
    ++ encodeOptStr "collation" i.collation
    ++ encodeOptInt "cardinality" i.cardinality
    ++ [("comment", .str i.comment)])

def decodeIndex : Json → Option IndexDefinition
  | .obj kvs => do
    let name ← asStr (lookupKey kvs "name")
    let tableName ← asStr (lookupKey kvs "tableName")
    let columnName ← asStr (lookupKey kvs "columnName")
    let nonUnique ← asBool (lookupKey kvs "nonUnique")
    let indexType ← asStr (lookupKey kvs "indexType")
    let seqInIndex ← asInt (lookupKey kvs "seqInIndex")
    let collation ← asOptStr (lookupKey kvs "collation")
    let cardinality ← asOptInt (lookupKey kvs "cardinality")
    let comment ← asStr (lookupKey kvs "comment")
    some ⟨name, tableName, columnName, nonUnique, indexType, seqInIndex,
      collation, cardinality, comment⟩
  | _ => none

def encodeForeignKey (f : ForeignKeyDefinition) : Json :=
  .obj [("constraintName", .str f.constraintName),
    ("tableName", .str f.tableName), ("columnName", .str f.columnName),
    ("referencedTableName", .str f.referencedTableName),
    ("referencedColumnName", .str f.referencedColumnName),
    ("updateRule", .str f.updateRule), ("deleteRule", .str f.deleteRule)]

def decodeForeignKey : Json → Option ForeignKeyDefinition
  | .obj kvs => do
    let constraintName ← asStr (lookupKey kvs "constraintName")
    let tableName ← asStr (lookupKey kvs "tableName")
    let columnName ← asStr (lookupKey kvs "columnName")
    let referencedTableName ← asStr (lookupKey kvs "referencedTableName")
    let referencedColumnName ← asStr (lookupKey kvs "referencedColumnName")
    let updateRule ← asStr (lookupKey kvs "updateRule")
    let deleteRule ← asStr (lookupKey kvs "deleteRule")
    some ⟨constraintName, tableName, columnName, referencedTableName,
      referencedColumnName, updateRule, deleteRule⟩
  | _ => none

def decodeElems (f : Json → Option α) : List Json → Option (List α)
  | [] => some []
  | j :: rest => do
    let a ← f j
    let as ← decodeElems f rest
    some (a :: as)

def decodeList (f : Json → Option α) : Json → Option (List α)
  | .arr elems => decodeElems f elems
  | _ => none

def encodeTable (t : TableDefinition) : Json :=
  .obj ([("name", .str t.name),
    ("columns", .arr (t.columns.map encodeColumn)),
    ("indexes", .arr (t.indexes.map encodeIndex)),
    ("foreignKeys", .arr (t.foreignKeys.map encodeForeignKey)),
    ("engine", .str t.engine), ("collation", .str t.collation),
    ("comment", .str t.comment)]
    ++ encodeOptStr "createStatement" t.createStatement)

def decodeTable : Json → Option TableDefinition
  | .obj kvs => do
    let name ← asStr (lookupKey kvs "name")
    let columns ← decodeList decodeColumn ((lookupKey kvs "columns").getD .null)
    let indexes ← decodeList decodeIndex ((lookupKey kvs "indexes").getD .null)
    let foreignKeys ←
      decodeList decodeForeignKey ((lookupKey kvs "foreignKeys").getD .null)
    let engine ← asStr (lookupKey kvs "engine")
    let collation ← asStr (lookupKey kvs "collation")
    let comment ← asStr (lookupKey kvs "comment")
    let createStatement ← asOptStr (lookupKey kvs "createStatement")
    some ⟨name, columns, indexes, foreignKeys, engine, collation, comment,
      createStatement⟩
  | _ => none

def encodeView (v : ViewDefinition) : Json :=
  .obj [("name", .str v.name), ("definition", .str v.definition),
    ("checkOption", .str v.checkOption), ("isUpdatable", .bool v.isUpdatable),
    ("definer", .str v.definer), ("securityType", .str v.securityType),
    ("characterSetClient", .str v.characterSetClient),
    ("collationConnection", .str v.collationConnection)]

def decodeView : Json → Option ViewDefinition
  | .obj kvs => do
    let name ← asStr (lookupKey kvs "name")
    let definition ← asStr (lookupKey kvs "definition")
    let checkOption ← asStr (lookupKey kvs "checkOption")
    let isUpdatable ← asBool (lookupKey kvs "isUpdatable")
    let definer ← asStr (lookupKey kvs "definer")
    let securityType ← asStr (lookupKey kvs "securityType")
    let characterSetClient ← asStr (lookupKey kvs "characterSetClient")
    let collationConnection ← asStr (lookupKey kvs "collationConnection")
    some ⟨name, definition, checkOption, isUpdatable, definer, securityType,
      characterSetClient, collationConnection⟩
  | _ => none

def encodeProcedure (p : ProcedureDefinition) : Json :=
  .obj ([("name", .str p.name), ("type", .str p.type),
    ("definition", .str p.definition), ("definer", .str p.definer),
    ("created", encodeDateVal p.created),
    ("modified", encodeDateVal p.modified),
    ("sqlDataAccess", .str p.sqlDataAccess),
    ("isDeterministic", .bool p.isDeterministic),
    ("securityType", .str p.securityType)]
    ++ encodeOptStr "parameterList" p.parameterList
    ++ encodeOptStr "returns" p.returns
    ++ [("comment", .str p.comment)])

def decodeProcedure : Json → Option ProcedureDefinition
  | .obj kvs => do
    let name ← asStr (lookupKey kvs "name")
    let type ← asStr (lookupKey kvs "type")
    let definition ← asStr (lookupKey kvs "definition")
    let definer ← asStr (lookupKey kvs "definer")
    let created ← asDateVal (lookupKey kvs "created")
    let modified ← asDateVal (lookupKey kvs "modified")
    let sqlDataAccess ← asStr (lookupKey kvs "sqlDataAccess")
    let isDeterministic ← asBool (lookupKey kvs "isDeterministic")
    let securityType ← asStr (lookupKey kvs "securityType")
    let parameterList ← asOptStr (lookupKey kvs "parameterList")
    let returns ← asOptStr (lookupKey kvs "returns")
    let comment ← asStr (lookupKey kvs "comment")
    some ⟨name, type, definition, definer, created, modified, sqlDataAccess,
      isDeterministic, securityType, parameterList, returns, comment⟩
  | _ => none

def encodeFunction (f : FunctionDefinition) : Json :=
  .obj ([("name", .str f.name), ("type", .str f.type),
    ("definition", .str f.definition), ("definer", .str f.definer),
    ("created", encodeDateVal f.created),
    ("modified", encodeDateVal f.modified),
    ("sqlDataAccess", .str f.sqlDataAccess),
    ("isDeterministic", .bool f.isDeterministic),
    ("securityType", .str f.securityType)]
    ++ encodeOptStr "parameterList" f.parameterList
    ++ [("returns", .str f.returns), ("comment", .str f.comment)])

def decodeFunction : Json → Option FunctionDefinition
  | .obj kvs => do
    let name ← asStr (lookupKey kvs "name")
    let type ← asStr (lookupKey kvs "type")
    let definition ← asStr (lookupKey kvs "definition")
    let definer ← asStr (lookupKey kvs "definer")
    let created ← asDateVal (lookupKey kvs "created")
    let modified ← asDateVal (lookupKey kvs "modified")
    let sqlDataAccess ← asStr (lookupKey kvs "sqlDataAccess")
    let isDeterministic ← asBool (lookupKey kvs "isDeterministic")
    let securityType ← asStr (lookupKey kvs "securityType")
    let parameterList ← asOptStr (lookupKey kvs "parameterList")
    let returns ← asStr (lookupKey kvs "returns")
    let comment ← asStr (lookupKey kvs "comment")
    some ⟨name, type, definition, definer, created, modified, sqlDataAccess,
      isDeterministic, securityType, parameterList, returns, comment⟩
  | _ => none

def encodeTrigger (t : TriggerDefinition) : Json :=
  .obj [("name", .str t.name), ("tableName", .str t.tableName),
    ("event", .str t.event), ("timing", .str t.timing),
    ("statement", .str t.statement), ("definer", .str t.definer),
    ("created", encodeDateVal t.created), ("sqlMode", .str t.sqlMode),
    ("characterSetClient", .str t.characterSetClient),
    ("collationConnection", .str t.collationConnection),
    ("databaseCollation", .str t.databaseCollation)]

def decodeTrigger : Json → Option TriggerDefinition
  | .obj kvs => do
    let name ← asStr (lookupKey kvs "name")
    let tableName ← asStr (lookupKey kvs "tableName")
    let event ← asStr (lookupKey kvs "event")
    let timing ← asStr (lookupKey kvs "timing")
    let statement ← asStr (lookupKey kvs "statement")
    let definer ← asStr (lookupKey kvs "definer")
    let created ← asDateVal (lookupKey kvs "created")
    let sqlMode ← asStr (lookupKey kvs "sqlMode")
    let characterSetClient ← asStr (lookupKey kvs "characterSetClient")
    let collationConnection ← asStr (lookupKey kvs "collationConnection")
    let databaseCollation ← asStr (lookupKey kvs "databaseCollation")
    some ⟨name, tableName, event, timing, statement, definer, created,
      sqlMode, characterSetClient, collationConnection, databaseCollation⟩
  | _ => none

def encodeEvent (e : EventDefinition) : Json :=
  .obj ([("name", .str e.name), ("definer", .str e.definer),
    ("timeZone", .str e.timeZone), ("type", .str e.type)]
    ++ encodeOptDateVal "executeAt" e.executeAt
    ++ encodeOptStr "intervalValue" e.intervalValue
    ++ encodeOptStr "intervalField" e.intervalField
    ++ [("status", .str e.status), ("onCompletion", .str e.onCompletion),
      ("definition", .str e.definition), ("comment", .str e.comment)])

def decodeEvent : Json → Option EventDefinition
  | .obj kvs => do
    let name ← asStr (lookupKey kvs "name")
    let definer ← asStr (lookupKey kvs "definer")
    let timeZone ← asStr (lookupKey kvs "timeZone")
    let type ← asStr (lookupKey kvs "type")
    let executeAt ← asOptDateVal (lookupKey kvs "executeAt")
    let intervalValue ← asOptStr (lookupKey kvs "intervalValue")
    let intervalField ← asOptStr (lookupKey kvs "intervalField")
    let status ← asStr (lookupKey kvs "status")
    let onCompletion ← asStr (lookupKey kvs "onCompletion")
    let definition ← asStr (lookupKey kvs "definition")
    let comment ← asStr (lookupKey kvs "comment")
    some ⟨name, definer, timeZone, type, executeAt, intervalValue,
      intervalField, status, onCompletion, definition, comment⟩
  | _ => none

def encodeSchema (s : DatabaseSchema) : Json :=
  .obj ([("databaseName", .str s.databaseName),
    ("tables", .arr (s.tables.map encodeTable)),
    ("views", .arr (s.views.map encodeView)),
    ("procedures", .arr (s.procedures.map encodeProcedure)),
    ("functions", .arr (s.functions.map encodeFunction)),
    ("triggers", .arr (s.triggers.map encodeTrigger)),
    ("events", .arr (s.events.map encodeEvent)),
    ("characterSet", .str s.characterSet),
    ("collation", .str s.collation),
    ("extractedAt", encodeDateVal s.extractedAt)]
    ++ encodeOptStr "version" s.version)

def decodeSchema : Json → Option DatabaseSchema
  | .obj kvs => do
    let databaseName ← asStr (lookupKey kvs "databaseName")
    let tables ← decodeList decodeTable ((lookupKey kvs "tables").getD .null)
    let views ← decodeList decodeView ((lookupKey kvs "views").getD .null)
    let procedures ←
      decodeList decodeProcedure ((lookupKey kvs "procedures").getD .null)
    let functions ←
      decodeList decodeFunction ((lookupKey kvs "functions").getD .null)
    let triggers ←
      decodeList decodeTrigger ((lookupKey kvs "triggers").getD .null)
    let events ← decodeList decodeEvent ((lookupKey kvs "events").getD .null)
    let characterSet ← asStr (lookupKey kvs "characterSet")
    let collation ← asStr (lookupKey kvs "collation")
    let extractedAt ← asDateVal (lookupKey kvs "extractedAt")
    let version ← asOptStr (lookupKey kvs "version")
    some ⟨databaseName, tables, views, procedures, functions, triggers,
      events, characterSet, collation, extractedAt, version⟩
  | _ => none

/-- Method `MySQLSchemaExtractor.exportToJSON(schema, pretty)` =
`JSON.stringify(schemaData, null, pretty ? 2 : 0)`, modelled up to
JSON-document identity (pretty-printing changes only whitespace). -/
def exportToJSON (schemaData : DatabaseSchema) : Json :=
  encodeSchema schemaData

/-- Method `MySQLSchemaImporter.loadSchemaFromJSON(jsonString)` =
`JSON.parse(jsonString) as DatabaseSchema`: the parsed document read back
at the declared schema type (no conversion is performed, so `Date` fields
come back as the parsed strings). -/
def loadSchemaFromJSON (j : Json) : Option DatabaseSchema :=
  decodeSchema j

/-! ## The SQL effect model

A run of the importer is the ordered list of statements it hands to
`this.sql.query`, each tagged with the method that issued it.  The
database's behaviour is an `Oracle`: given the statements issued so far
and the next statement, it either succeeds (`none`) or throws an error
with the given message (`some msg`). -/

inductive QueryKind where
  | admin
  | table
  | view
  | func
  | proc
  | trig
  | evt
deriving DecidableEq

structure QueryEvent where
  kind : QueryKind
  sql : String
deriving DecidableEq

abbrev Oracle := List QueryEvent → String → Option String

/-- Position of each object kind in `applySchema`'s fixed processing
order. -/
def kindRank : QueryKind → Nat
  | .admin => 0
  | .table => 1
  | .view => 2
  | .func => 3
  | .proc => 4
  | .trig => 5
  | .evt => 6

/-- Await the statements of `qs` in order against the oracle: every
attempted statement is recorded, and the first failure stops the sequence
and surfaces its message (a thrown rejection). -/
def runSeq (oracle : Oracle) (k : QueryKind) :
    List QueryEvent → List String → List QueryEvent × Option String
  | _, [] => ([], none)
  | hist, q :: qs =>
    match oracle hist q with
    | some e => ([⟨k, q⟩], some e)
    | none =>
      let (evs, r) := runSeq oracle k (hist ++ [⟨k, q⟩]) qs
      (⟨k, q⟩ :: evs, r)

/-! ## `MySQLSchemaImporter` options, result, and object creation -/

/-- Interface `SchemaImportOptions` plus the extra `targetDatabase` option of
`applySchema`; the field defaults are the `defaultOptions` record that
`applySchema` spreads under the caller's options. -/
structure SchemaImportOptions where
  dropExisting : Bool := false
  createTables : Bool := true
  createViews : Bool := true
  createFunctions : Bool := true
  createProcedures : Bool := true
  createTriggers : Bool := true
  createEvents : Bool := true
  skipErrors : Bool := false
  dryRun : Bool := false
  targetDatabase : Option String := none
deriving DecidableEq

/-- The merged options of a call that passes no options object. -/
def defaultImportOptions : SchemaImportOptions := {}

structure SchemaImportResult where
  success : Bool
  tablesCreated : List String
  viewsCreated : List String
  functionsCreated : List String
  proceduresCreated : List String
  triggersCreated : List String
  eventsCreated : List String
  errors : List (String × String)
  warnings : List String
deriving DecidableEq

/-- One rendered column line of `generateCreateTableSQL`. -/
def columnDefSQL (col : ColumnDefinition) : String :=
  let d1 := "  `" ++ col.name ++ "` " ++ col.type
  let d2 := if !col.nullable then d1 ++ " NOT NULL" else d1
  let d3 := match col.defaultValue with
    | some dv => d2 ++ " DEFAULT " ++ dv
    | none => d2
  let d4 := if !(col.extra == "") then d3 ++ " " ++ col.extra else d3
  if !(col.comment == "") then
    d4 ++ " COMMENT \x27" ++ strReplaceAll col.comment "\x27" "\x27\x27" ++ "\x27"
  else d4

/-- The `uniqueIndexes` insertion-ordered `Map<string, string[]>` of
`generateCreateTableSQL`: `PRIMARY` entries are skipped, every other entry
appends its column to the list under its index name. -/
def addIndexCol (acc : List (String × List String)) (nm col : String) :
    List (String × List String) :=
  if acc.any (fun p => p.1 == nm) then
    acc.map (fun p => if p.1 == nm then (p.1, p.2 ++ [col]) else p)
  else acc ++ [(nm, [col])]

def collectIndexCols (idxs : List IndexDefinition) :
    List (String × List String) :=
  idxs.foldl (fun acc idx =>
    if idx.name == "PRIMARY" then acc
    else addIndexCol acc idx.name idx.columnName) []

/-- Method `MySQLSchemaImporter.generateCreateTableSQL`. -/
def generateCreateTableSQL (table : TableDefinition) : String :=
  let lines0 := ["CREATE TABLE IF NOT EXISTS `" ++ table.name ++ "` ("]
  let columnDefs := table.columns.map columnDefSQL
  let lines1 := lines0 ++ [String.intercalate ",\n" columnDefs]
  let primaryKeys :=
    (table.columns.filter (fun c => c.key == some "PRI")).map (·.name)
  let lines2 :=
    if primaryKeys.length > 0 then
      lines1 ++ [",  PRIMARY KEY (" ++
        String.intercalate ", " (primaryKeys.map (fun k => "`" ++ k ++ "`"))
        ++ ")"]
    else lines1
  let uniqueIndexes := collectIndexCols table.indexes
  let lines3 := lines2 ++ uniqueIndexes.map (fun p =>
    let indexDef := table.indexes.find? (fun i => i.name == p.1)
    let unique :=
      match indexDef with
      | some idef => if !idef.nonUnique then "UNIQUE " else ""
      | none => ""
    ",  " ++ unique ++ "KEY `" ++ p.1 ++ "` (" ++
      String.intercalate ", " (p.2.map (fun c => "`" ++ c ++ "`")) ++ ")")
  let lines4 := lines3 ++ table.foreignKeys.map (fun fk =>
    ",  CONSTRAINT `" ++ fk.constraintName ++ "` FOREIGN KEY (`" ++
      fk.columnName ++ "`) " ++
    "REFERENCES `" ++ fk.referencedTableName ++ "`(`" ++
      fk.referencedColumnName ++ "`) " ++
    "ON UPDATE " ++ fk.updateRule ++ " ON DELETE " ++ fk.deleteRule)
  let lines5 := lines4 ++ [") ENGINE=" ++ table.engine ++
    " DEFAULT CHARSET=" ++ ((strSplitOn table.collation "_").headD "")]
  let lines6 :=
    if !(table.comment == "") then
      lines5 ++ [" COMMENT=\x27" ++
        strReplaceAll table.comment "\x27" "\x27\x27" ++ "\x27"]
    else lines5
  String.intercalate "\n" lines6 ++ ";"

/-- Method `MySQLSchemaImporter.createTable`.  `if (table.createStatement)` is a
truthiness test, so an empty stored statement also falls back to the
generated one. -/
def createTable (oracle : Oracle) (hist : List QueryEvent)
    (table : TableDefinition) (options : SchemaImportOptions) :
    List QueryEvent × Option String :=
  if options.dryRun then ([], none)
  else
    let qs :=
      (if options.dropExisting then
        ["DROP TABLE IF EXISTS `" ++ table.name ++ "`"]
      else []) ++
      [match table.createStatement with
       | some stmt => if stmt == "" then generateCreateTableSQL table else stmt
       | none => generateCreateTableSQL table]
    runSeq oracle .table hist qs

/-- The view-body rewrite of `createView`: when source and target database
names are both given, non-empty (truthy) and different, rewrite
backtick-qualified references via a global literal replace and bare dotted
references via a `\b`-anchored global replace. -/
def rewriteViewDefinition (definition : String)
    (sourceDatabase targetDatabase : Option String) : String :=
  match sourceDatabase, targetDatabase with
  | some src, some tgt =>
    if !(src == "") && !(tgt == "") && !(src == tgt) then
      let d1 := strReplaceAll definition ("`" ++ src ++ "`.") ("`" ++ tgt ++ "`.")
      replaceUnquotedDb d1 src tgt
    else definition
  | _, _ => definition

/-- Method `MySQLSchemaImporter.createView`. -/
def createView (oracle : Oracle) (hist : List QueryEvent)
    (view : ViewDefinition) (options : SchemaImportOptions)
    (sourceDatabase targetDatabase : Option String) :
    List QueryEvent × Option String :=
  if options.dryRun then ([], none)
  else
    let definition :=
      rewriteViewDefinition view.definition sourceDatabase targetDatabase
    let qs :=
      (if options.dropExisting then
        ["DROP VIEW IF EXISTS `" ++ view.name ++ "`"]
      else []) ++
      ["CREATE VIEW `" ++ view.name ++ "` AS " ++ definition]
    runSeq oracle .view hist qs

/-- Method `MySQLSchemaImporter.createFunction`: the drop is unconditional, and a
stored body that already starts with `CREATE` (after trim/upper-case) is
executed verbatim. -/
def createFunction (oracle : Oracle) (hist : List QueryEvent)
    (func : FunctionDefinition) (options : SchemaImportOptions) :
    List QueryEvent × Option String :=
  if options.dryRun then ([], none)
  else
    let qs := ["DROP FUNCTION IF EXISTS `" ++ func.name ++ "`"] ++
      [if strStartsWith (strToUpper (strTrim func.definition)) "CREATE" then
        func.definition
      else
        let deterministic :=
          if func.isDeterministic then "DETERMINISTIC" else "NOT DETERMINISTIC"
        "\n        CREATE FUNCTION `" ++ func.name ++ "`() RETURNS " ++
          func.returns ++ "\n        " ++ deterministic ++
          "\n        BEGIN\n          " ++ func.definition ++
          "\n        END\n      "]
    runSeq oracle .func hist qs

/-- Method `MySQLSchemaImporter.createProcedure`. -/
def createProcedure (oracle : Oracle) (hist : List QueryEvent)
    (procDef : ProcedureDefinition) (options : SchemaImportOptions) :
    List QueryEvent × Option String :=
  if options.dryRun then ([], none)
  else
    let qs := ["DROP PROCEDURE IF EXISTS `" ++ procDef.name ++ "`"] ++
      [if strStartsWith (strToUpper (strTrim procDef.definition)) "CREATE" then
        procDef.definition
      else
        let deterministic :=
          if procDef.isDeterministic then "DETERMINISTIC"
          else "NOT DETERMINISTIC"
        "\n        CREATE PROCEDURE `" ++ procDef.name ++ "`()\n        " ++
          deterministic ++ "\n        BEGIN\n          " ++
          procDef.definition ++ "\n        END\n      "]
    runSeq oracle .proc hist qs

/-- Method `MySQLSchemaImporter.createTrigger`. -/
def createTrigger (oracle : Oracle) (hist : List QueryEvent)
    (trigger : TriggerDefinition) (options : SchemaImportOptions) :
    List QueryEvent × Option String :=
  if options.dryRun then ([], none)
  else
    let qs :=
      (if options.dropExisting then
        ["DROP TRIGGER IF EXISTS `" ++ trigger.name ++ "`"]
      else []) ++
      ["\n      CREATE TRIGGER `" ++ trigger.name ++ "`\n      " ++
        trigger.timing ++ " " ++ trigger.event ++ " ON `" ++
        trigger.tableName ++ "`\n      FOR EACH ROW\n      BEGIN\n        " ++
        trigger.statement ++ "\n      END\n    "]
    runSeq oracle .trig hist qs

/-- JS template interpolation of a possibly-`undefined` value. -/
def optUndef : Option String → String
  | some s => s
  | none => "undefined"

/-- Method `MySQLSchemaImporter.createEvent`.  The schedule for a one-time event
calls `executeAt.toISOString()`; on a schema that came through
`JSON.parse` that field is a plain string and the call throws a
`TypeError`, which the per-object handler of `applySchema` catches like
any other failure — hence the `Except` in the schedule computation.  In
the source the schedule is computed between the optional drop and the
create; since computing it has no database effect, the model hoists the
computation and keeps the effect order: when it throws, the drop has run
and the create is never issued (a drop failure still wins, as in the
source). -/
def createEvent (oracle : Oracle) (hist : List QueryEvent)
    (event : EventDefinition) (options : SchemaImportOptions) :
    List QueryEvent × Option String :=
  if options.dryRun then ([], none)
  else
    let dropQs :=
      if options.dropExisting then
        ["DROP EVENT IF EXISTS `" ++ event.name ++ "`"]
      else []
    let sched : Except String String :=
      if event.type == "ONE TIME" &&
          (event.executeAt.map DateVal.truthy).getD false then
        match event.executeAt with
        | some (.date d) =>
          .ok ("AT \x27" ++ replaceFirst (d.iso.take 19) "T" " " ++ "\x27")
        | some (.str _) =>
          .error "event.executeAt.toISOString is not a function"
        | none => .ok ""
      else if event.type == "RECURRING" then
        .ok ("EVERY " ++ optUndef event.intervalValue ++ " " ++
          optUndef event.intervalField)
      else .ok ""
    match sched with
    | .ok schedule =>
      runSeq oracle .evt hist (dropQs ++
        ["\n      CREATE EVENT `" ++ event.name ++
          "`\n      ON SCHEDULE " ++ schedule ++
          "\n      ON COMPLETION " ++ event.onCompletion ++ "\n      " ++
          event.status ++ "\n      DO\n      BEGIN\n        " ++
          event.definition ++ "\n      END\n    "])
    | .error te =>
      let r := runSeq oracle .evt hist dropQs
      (r.1, some (r.2.getD te))

/-! ## `applySchema` and the workflows built on it -/

/-- Result of processing one object kind's loop: the statements issued,
the names pushed onto the kind's created list, the entries pushed onto
`result.errors`, and — when `skipErrors` is false and an object failed —
the error that was re-thrown out of the loop. -/
structure StageResult where
  events : List QueryEvent
  created : List String
  errors : List (String × String)
  abort : Option String
deriving DecidableEq

/-- One `for (const x of ...)` loop of `applySchema` with its per-object
`try`/`catch`: a success pushes the object's name, a failure pushes a
kind-qualified error entry and — unless `skipErrors` — re-throws, which
ends the loop. -/
def processItems (oracle : Oracle) (objTag : String) (nameOf : α → String)
    (create : List QueryEvent → α → List QueryEvent × Option String)
    (skipErrors : Bool) :
    List QueryEvent → List α → StageResult
  | _, [] => ⟨[], [], [], none⟩
  | hist, item :: rest =>
    match create hist item with
    | (evs, none) =>
      let s := processItems oracle objTag nameOf create skipErrors
        (hist ++ evs) rest
      ⟨evs ++ s.events, nameOf item :: s.created, s.errors, s.abort⟩
    | (evs, some e) =>
      if skipErrors then
        let s := processItems oracle objTag nameOf create skipErrors
          (hist ++ evs) rest
        ⟨evs ++ s.events, s.created,
          (objTag ++ ":" ++ nameOf item, e) :: s.errors, s.abort⟩
      else
        ⟨evs, [], [(objTag ++ ":" ++ nameOf item, e)], some e⟩

/-- A kind's block inside the outer `try`: skipped entirely when an
earlier error is already propagating, or when the kind is disabled. -/
def runStage (ab : Option String) (enabled : Bool)
    (go : Unit → StageResult) : StageResult :=
  match ab with
  | some e => ⟨[], [], [], some e⟩
  | none => if enabled then go () else ⟨[], [], [], none⟩

/-- Everything `applySchema` has accumulated when control reaches its
outer `catch` (or falls through it): the full statement trace, the six
created-name lists, the collected error entries, and the error
propagating out of the `try` body, if any. -/
structure ApplyOutcome where
  events : List QueryEvent
  tablesCreated : List String
  viewsCreated : List String
  functionsCreated : List String
  proceduresCreated : List String
  triggersCreated : List String
  eventsCreated : List String
  errors : List (String × String)
  abort : Option String
deriving DecidableEq

/-- Step 1 of `applySchema`'s `try` body:
`SET FOREIGN_KEY_CHECKS = 0` unless dry-run. -/
def fkStage0 (oracle : Oracle) (opts : SchemaImportOptions) :
    List QueryEvent × Option String :=
  if !opts.dryRun then
    runSeq oracle .admin [] ["SET FOREIGN_KEY_CHECKS = 0"]
  else ([], none)

/-- Step 3 of `applySchema`'s `try` body: `SET FOREIGN_KEY_CHECKS = 1`
unless dry-run — reached only when no error is already propagating. -/
def fkStage1 (oracle : Oracle) (opts : SchemaImportOptions)
    (hist : List QueryEvent) (ab : Option String) :
    List QueryEvent × Option String :=
  match ab with
  | some e => ([], some e)
  | none =>
    if !opts.dryRun then
      runSeq oracle .admin hist ["SET FOREIGN_KEY_CHECKS = 1"]
    else ([], none)

/-- The `try` body of `MySQLSchemaImporter.applySchema`: disable foreign
key checks (unless dry-run), process the six kinds in the fixed order
tables → views → functions → procedures → triggers → events, re-enable
foreign key checks (unless dry-run).  An error thrown anywhere skips all
later steps. -/
def applySchemaAux (oracle : Oracle) (schema : DatabaseSchema)
    (opts : SchemaImportOptions) : ApplyOutcome :=
  let s0 := fkStage0 oracle opts
  let h0 := s0.1
  let sT := runStage s0.2 opts.createTables (fun _ =>
    processItems oracle "table" TableDefinition.name
      (fun h t => createTable oracle h t opts) opts.skipErrors h0 schema.tables)
  let h1 := h0 ++ sT.events
  let sV := runStage sT.abort opts.createViews (fun _ =>
    processItems oracle "view" ViewDefinition.name
      (fun h v => createView oracle h v opts (some schema.databaseName)
        opts.targetDatabase)
      opts.skipErrors h1 schema.views)
  let h2 := h1 ++ sV.events
  let sFn := runStage sV.abort opts.createFunctions (fun _ =>
    processItems oracle "function" FunctionDefinition.name
      (fun h f => createFunction oracle h f opts) opts.skipErrors h2
      schema.functions)
  let h3 := h2 ++ sFn.events
  let sPr := runStage sFn.abort opts.createProcedures (fun _ =>
    processItems oracle "procedure" ProcedureDefinition.name
      (fun h p => createProcedure oracle h p opts) opts.skipErrors h3
      schema.procedures)
  let h4 := h3 ++ sPr.events
  let sTr := runStage sPr.abort opts.createTriggers (fun _ =>
    processItems oracle "trigger" TriggerDefinition.name
      (fun h t => createTrigger oracle h t opts) opts.skipErrors h4
      schema.triggers)
  let h5 := h4 ++ sTr.events
  let sEv := runStage sTr.abort opts.createEvents (fun _ =>
    processItems oracle "event" EventDefinition.name
      (fun h e => createEvent oracle h e opts) opts.skipErrors h5
      schema.events)
  let h6 := h5 ++ sEv.events
  let s7 := fkStage1 oracle opts h6 sEv.abort
  ⟨h6 ++ s7.1, sT.created, sV.created, sFn.created, sPr.created,
    sTr.created, sEv.created,
    sT.errors ++ sV.errors ++ sFn.errors ++ sPr.errors ++ sTr.errors ++
      sEv.errors,
    s7.2⟩

/-- Method `MySQLSchemaImporter.applySchema`.  The outer `catch` turns a
propagating error into a `schema`-tagged entry unless an entry with the
same message is already recorded, and `success` is recomputed at the end
as "`errors` is empty"; the method itself therefore always resolves
(`Except.ok`) — the `Except` channel is its `Promise` rejection path. -/
def applySchema (oracle : Oracle) (schema : DatabaseSchema)
    (opts : SchemaImportOptions) :
    List QueryEvent × Except String SchemaImportResult :=
  let o := applySchemaAux oracle schema opts
  let errors :=
    match o.abort with
    | none => o.errors
    | some e =>
      if o.errors.any (fun p => p.2 == e) then o.errors
      else o.errors ++ [("schema", e)]
  (o.events, .ok {
    success := errors.length == 0
    tablesCreated := o.tablesCreated
    viewsCreated := o.viewsCreated
    functionsCreated := o.functionsCreated
    proceduresCreated := o.proceduresCreated
    triggersCreated := o.triggersCreated
    eventsCreated := o.eventsCreated
    errors := errors
    warnings := [] })

/-- Method `MySQLSchemaImporter.applyTables`: `applySchema` with every non-table
kind disabled. -/
def applyTables (oracle : Oracle) (schema : DatabaseSchema)
    (opts : SchemaImportOptions) :
    List QueryEvent × Except String SchemaImportResult :=
  applySchema oracle schema { opts with
    createTables := true
    createViews := false
    createFunctions := false
    createProcedures := false
    createTriggers := false
    createEvents := false }

/-- Method `MySQLSchemaImporter.applySpecificTables`: keep only the named tables,
clear every other kind-collection, delegate to `applyTables`. -/
def applySpecificTables (oracle : Oracle) (schema : DatabaseSchema)
    (tableNames : List String) (opts : SchemaImportOptions) :
    List QueryEvent × Except String SchemaImportResult :=
  let filteredSchema := { schema with
    tables := schema.tables.filter (fun t => tableNames.contains t.name)
    views := []
    functions := []
    procedures := []
    triggers := []
    events := [] }
  applyTables oracle filteredSchema opts

structure ValidationResult where
  valid : Bool
  errors : List String
  warnings : List String
deriving DecidableEq

/-- Method `MySQLSchemaImporter.validateSchema`: `applySchema` forced to dry-run
with `skipErrors`, reinterpreted as a validation report. -/
def validateSchema (oracle : Oracle) (schema : DatabaseSchema) :
    Except String ValidationResult :=
  match applySchema oracle schema
      { defaultImportOptions with dryRun := true, skipErrors := true } with
  | (_, .ok result) =>
    .ok ⟨result.success, result.errors.map (fun e => e.1 ++ ": " ++ e.2),
      result.warnings⟩
  | (_, .error e) => .error e

/-! ## Helper lemmas -/

theorem createTable_dryRun (oracle : Oracle) (hist : List QueryEvent)
    (t : TableDefinition) (opts : SchemaImportOptions)
    (h : opts.dryRun = true) : createTable oracle hist t opts = ([], none) := by
  simp [createTable, h]

theorem createView_dryRun (oracle : Oracle) (hist : List QueryEvent)
    (v : ViewDefinition) (opts : SchemaImportOptions) (src tgt : Option String)
    (h : opts.dryRun = true) :
    createView oracle hist v opts src tgt = ([], none) := by
  simp [createView, h]

theorem createFunction_dryRun (oracle : Oracle) (hist : List QueryEvent)
    (f : FunctionDefinition) (opts : SchemaImportOptions)
    (h : opts.dryRun = true) :
    createFunction oracle hist f opts = ([], none) := by
  simp [createFunction, h]

theorem createProcedure_dryRun (oracle : Oracle) (hist : List QueryEvent)
    (p : ProcedureDefinition) (opts : SchemaImportOptions)
    (h : opts.dryRun = true) :
    createProcedure oracle hist p opts = ([], none) := by
  simp [createProcedure, h]

theorem createTrigger_dryRun (oracle : Oracle) (hist : List QueryEvent)
    (t : TriggerDefinition) (opts : SchemaImportOptions)
    (h : opts.dryRun = true) :
    createTrigger oracle hist t opts = ([], none) := by
  simp [createTrigger, h]

theorem createEvent_dryRun (oracle : Oracle) (hist : List QueryEvent)
    (e : EventDefinition) (opts : SchemaImportOptions)
    (h : opts.dryRun = true) :
    createEvent oracle hist e opts = ([], none) := by
  simp [createEvent, h]

/-- A loop whose body issues nothing and never fails records every name
and produces no events, errors, or abort. -/
theorem processItems_const_ok {α : Type} (oracle : Oracle) (objTag : String)
    (nameOf : α → String)
    (create : List QueryEvent → α → List QueryEvent × Option String)
    (skipErrors : Bool) (hc : ∀ h x, create h x = ([], none)) :
    ∀ (hist : List QueryEvent) (items : List α),
      processItems oracle objTag nameOf create skipErrors hist items =
        ⟨[], items.map nameOf, [], none⟩ := by
  intro hist items
  induction items generalizing hist with
  | nil => rfl
  | cons x xs ih => simp [processItems, hc, ih]

theorem runStage_none_ok {cr : List String} (enabled : Bool)
    (go : Unit → StageResult) (hgo : go () = ⟨[], cr, [], none⟩) :
    runStage none enabled go =
      ⟨[], if enabled then cr else [], [], none⟩ := by
  cases enabled <;> simp [runStage, hgo]

/-- The full dry-run outcome: no statement is issued, nothing fails, and
every object of every enabled kind is recorded as created. -/
theorem applySchemaAux_dryRun (oracle : Oracle) (schema : DatabaseSchema)
    (opts : SchemaImportOptions) (h : opts.dryRun = true) :
    applySchemaAux oracle schema opts =
      ⟨[],
        if opts.createTables then schema.tables.map TableDefinition.name else [],
        if opts.createViews then schema.views.map ViewDefinition.name else [],
        if opts.createFunctions then
          schema.functions.map FunctionDefinition.name else [],
        if opts.createProcedures then
          schema.procedures.map ProcedureDefinition.name else [],
        if opts.createTriggers then
          schema.triggers.map TriggerDefinition.name else [],
        if opts.createEvents then schema.events.map EventDefinition.name else [],
        [], none⟩ := by
  unfold applySchemaAux
  have h0 : fkStage0 oracle opts = ([], none) := by simp [fkStage0, h]
  rw [h0]
  dsimp only
  rw [runStage_none_ok _ _ (processItems_const_ok _ _ _ _ _
    (fun hs t => createTable_dryRun oracle hs t opts h) _ _)]
  rw [runStage_none_ok _ _ (processItems_const_ok _ _ _ _ _
    (fun hs v => createView_dryRun oracle hs v opts _ _ h) _ _)]
  rw [runStage_none_ok _ _ (processItems_const_ok _ _ _ _ _
    (fun hs f => createFunction_dryRun oracle hs f opts h) _ _)]
  rw [runStage_none_ok _ _ (processItems_const_ok _ _ _ _ _
    (fun hs p => createProcedure_dryRun oracle hs p opts h) _ _)]
  rw [runStage_none_ok _ _ (processItems_const_ok _ _ _ _ _
    (fun hs t => createTrigger_dryRun oracle hs t opts h) _ _)]
  rw [runStage_none_ok _ _ (processItems_const_ok _ _ _ _ _
    (fun hs e => createEvent_dryRun oracle hs e opts h) _ _)]
  simp [fkStage1, h]

/-- Running `applySchema` under `dryRun`: no statements, an all-success result. -/
theorem applySchema_dryRun (oracle : Oracle) (schema : DatabaseSchema)
    (opts : SchemaImportOptions) (h : opts.dryRun = true) :
    applySchema oracle schema opts =
      ([], Except.ok
        ⟨true,
          if opts.createTables then
            schema.tables.map TableDefinition.name else [],
          if opts.createViews then schema.views.map ViewDefinition.name else [],
          if opts.createFunctions then
            schema.functions.map FunctionDefinition.name else [],
          if opts.createProcedures then
            schema.procedures.map ProcedureDefinition.name else [],
          if opts.createTriggers then
            schema.triggers.map TriggerDefinition.name else [],
          if opts.createEvents then
            schema.events.map EventDefinition.name else [],
          [], []⟩) := by
  unfold applySchema
  rw [applySchemaAux_dryRun oracle schema opts h]
  rfl

/-! ## Claims -/

/-- Claim C5 (code_bug evidence): on the raw type `tinyint(1)` the
type-declaration mapping returns `number`, not the `boolean` the spec (and
the source's own dead `// Booleans` branch) promises, because the
`includes('int')` number test runs first; the `enum('a','b')` half of the
claim does hold and yields the two-member literal union. -/
theorem c5_tinyint1_maps_to_number_enum_union :
    mysqlTypeToTypeScript "tinyint(1)" = "number" ∧
    mysqlTypeToTypeScript "enum(\x27a\x27,\x27b\x27)" = "\x27a\x27 | \x27b\x27" := by
  constructor <;> rfl

/-- Claim C10: `compareSchemas` reads nothing but the `tables` and `views`
collections of its two arguments, so any two argument pairs agreeing on
those produce identical comparisons. -/
theorem c10_compare_depends_only_on_tables_views
    (o o2 n n2 : DatabaseSchema)
    (ht : o.tables = o2.tables) (hv : o.views = o2.views)
    (ht2 : n.tables = n2.tables) (hv2 : n.views = n2.views) :
    compareSchemas o n = compareSchemas o2 n2 := by
  unfold compareSchemas
  rw [ht, hv, ht2, hv2]

/-- Two schemas agreeing on tables and views but differing in database
name, procedures, character set, extraction timestamp and version, for
the C10 witness. -/
def w10a : DatabaseSchema :=
  ⟨"db", [⟨"t", [], [], [], "InnoDB", "utf8mb4_unicode_ci", "", none⟩], [],
    [], [], [], [], "utf8mb4", "utf8mb4_unicode_ci",
    .date ⟨"2024-01-01T00:00:00.000Z"⟩, some "8.0"⟩

def w10a' : DatabaseSchema :=
  ⟨"other_db", [⟨"t", [], [], [], "InnoDB", "utf8mb4_unicode_ci", "", none⟩],
    [],
    [⟨"p", "PROCEDURE", "SELECT 1", "root", .str "2020", .str "2020",
      "CONTAINS SQL", false, "DEFINER", none, none, ""⟩],
    [], [], [], "latin1", "latin1_swedish_ci",
    .date ⟨"2030-12-31T23:59:59.000Z"⟩, none⟩

def w10b : DatabaseSchema :=
  ⟨"db", [], [⟨"v", "select 1", "NONE", true, "root", "DEFINER", "utf8mb4",
    "utf8mb4_unicode_ci"⟩], [], [], [], [], "utf8mb4", "utf8mb4_unicode_ci",
    .str "2024", none⟩

def w10b' : DatabaseSchema :=
  ⟨"db", [], [⟨"v", "select 1", "NONE", true, "root", "DEFINER", "utf8mb4",
    "utf8mb4_unicode_ci"⟩], [],
    [⟨"f", "FUNCTION", "RETURN 1", "root", .str "2020", .str "2020",
      "CONTAINS SQL", true, "DEFINER", none, "int(11)", ""⟩],
    [⟨"tr", "t", "INSERT", "BEFORE", "SET @x = 1", "root", .str "2020",
      "", "utf8mb4", "utf8mb4_unicode_ci", "utf8mb4_unicode_ci"⟩],
    [], "utf8mb4", "utf8mb4_general_ci", .str "2025", some "5.7"⟩

theorem c10_compare_depends_only_on_tables_views_witness :
    w10a.tables = w10a'.tables ∧ w10a.views = w10a'.views ∧
    w10b.tables = w10b'.tables ∧ w10b.views = w10b'.views ∧
    compareSchemas w10a w10b = compareSchemas w10a' w10b' :=
  ⟨rfl, rfl, rfl, rfl,
    c10_compare_depends_only_on_tables_views w10a w10a' w10b w10b'
      rfl rfl rfl rfl⟩

/-- Claim C9: with `dryRun = true`, `applySchema` issues no SQL statement
at all (the trace is empty, so not even the foreign-key toggles run), and
the result always has empty `errors`, `success = true`, and every object
of every enabled kind in its created-names lists. -/
theorem c9_dry_run_no_sql_no_errors (oracle : Oracle)
    (schema : DatabaseSchema) (opts : SchemaImportOptions)
    (h : opts.dryRun = true) :
    applySchema oracle schema opts =
      ([], Except.ok
        ⟨true,
          if opts.createTables then
            schema.tables.map TableDefinition.name else [],
          if opts.createViews then schema.views.map ViewDefinition.name else [],
          if opts.createFunctions then
            schema.functions.map FunctionDefinition.name else [],
          if opts.createProcedures then
            schema.procedures.map ProcedureDefinition.name else [],
          if opts.createTriggers then
            schema.triggers.map TriggerDefinition.name else [],
          if opts.createEvents then
            schema.events.map EventDefinition.name else [],
          [], []⟩) :=
  applySchema_dryRun oracle schema opts h

/-- A schema with one table and one view, and an oracle that would fail
every statement, for the C9 witness: the dry run still succeeds because it
never asks the database anything. -/
def w9Schema : DatabaseSchema :=
  ⟨"db", [⟨"user", [], [], [], "InnoDB", "utf8mb4_unicode_ci", "", none⟩],
    [⟨"v1", "select 1", "NONE", true, "root", "DEFINER", "utf8mb4",
      "utf8mb4_unicode_ci"⟩],
    [], [], [], [], "utf8mb4", "utf8mb4_unicode_ci",
    .date ⟨"2024-01-01T00:00:00.000Z"⟩, none⟩

def w9Oracle : Oracle := fun _ _ => some "database is down"

theorem c9_dry_run_no_sql_no_errors_witness :
    ({ defaultImportOptions with dryRun := true } :
      SchemaImportOptions).dryRun = true ∧
    applySchema w9Oracle w9Schema { defaultImportOptions with dryRun := true } =
      ([], Except.ok ⟨true, ["user"], ["v1"], [], [], [], [], [], []⟩) :=
  ⟨rfl, c9_dry_run_no_sql_no_errors w9Oracle w9Schema _ rfl⟩

/-- Claim C1 (amendment): `validateSchema` returns `valid = true` with
empty `errors` and `warnings` for *every* schema and every database
behaviour — its dry run skips each object's creation before any check can
fail, so no referential validation happens at all. -/
theorem c1_validateSchema_always_valid (oracle : Oracle)
    (schema : DatabaseSchema) :
    validateSchema oracle schema = .ok ⟨true, [], []⟩ := by
  unfold validateSchema
  rw [applySchema_dryRun oracle schema _ rfl]
  rfl

/-- A table whose foreign key references `missing_table`, which is not
among the schema's tables. -/
def c1FKTable : TableDefinition :=
  ⟨"pet",
    [⟨"owner_id", "int(11)", false, none, "", "", none, none, some "MUL"⟩],
    [],
    [⟨"fk_owner", "pet", "owner_id", "missing_table", "id", "RESTRICT",
      "RESTRICT"⟩],
    "InnoDB", "utf8mb4_unicode_ci", "", none⟩

def c1Schema : DatabaseSchema :=
  ⟨"db", [c1FKTable], [], [], [], [], [], "utf8mb4", "utf8mb4_unicode_ci",
    .date ⟨"2024-01-01T00:00:00.000Z"⟩, some "8.0"⟩

def c1Oracle : Oracle := fun _ _ => none

/-- Claim C1 (counterexample): on a schema whose only table carries a
foreign key referencing the absent `missing_table`, `validateSchema`
returns `valid = true` and an *empty* error list — not the claimed
`valid = false` with an entry naming the missing table. -/
theorem c1_counterexample :
    c1FKTable.foreignKeys.map ForeignKeyDefinition.referencedTableName =
      ["missing_table"] ∧
    (c1Schema.tables.map TableDefinition.name).contains "missing_table" =
      false ∧
    validateSchema c1Oracle c1Schema = .ok ⟨true, [], []⟩ := by
  exact ⟨rfl, rfl, rfl⟩

/-- A single statement is always recorded in the trace, whether or not it
fails. -/
theorem runSeq_single_events (oracle : Oracle) (k : QueryKind)
    (hist : List QueryEvent) (q : String) :
    (runSeq oracle k hist [q]).1 = [⟨k, q⟩] := by
  unfold runSeq
  cases oracle hist q <;> simp [runSeq]

theorem fkStage1_events_of_none (oracle : Oracle)
    (opts : SchemaImportOptions) (hist : List QueryEvent) (ab : Option String)
    (hdry : opts.dryRun = false)
    (h : (fkStage1 oracle opts hist ab).2 = none) :
    (fkStage1 oracle opts hist ab).1 =
      [⟨.admin, "SET FOREIGN_KEY_CHECKS = 1"⟩] := by
  cases ab with
  | none => simp [fkStage1, hdry, runSeq_single_events]
  | some e => simp [fkStage1] at h

theorem getLast?_append_singleton {α : Type} (l : List α) (a : α) :
    (l ++ [a]).getLast? = some a :=
  List.getLast?_concat l

/-- The first failing table of the C2/C3 setting: its stored creation
statement is rejected by the oracle. -/
def c2BadTable : TableDefinition :=
  ⟨"bad", [], [], [], "InnoDB", "utf8mb4_unicode_ci", "",
    some "CREATE TABLE bad"⟩

def c2GoodTable : TableDefinition :=
  ⟨"good", [], [], [], "InnoDB", "utf8mb4_unicode_ci", "",
    some "CREATE TABLE good"⟩

def c2Schema : DatabaseSchema :=
  ⟨"db", [c2BadTable, c2GoodTable], [], [], [], [], [], "utf8mb4",
    "utf8mb4_unicode_ci", .date ⟨"2024-01-01T00:00:00.000Z"⟩, none⟩

def c2Oracle : Oracle := fun _ q =>
  if q == "CREATE TABLE bad" then some "boom" else none

/-- Claim C2 (counterexample): with `skipErrors = false` (the default) and
the first table's creation failing, processing does stop — the trace ends
at the failing statement and `good` is never attempted — but the failure
is *not* re-raised to the caller: `applySchema` resolves normally
(`Except.ok`), with the failure only recorded in the returned result. -/
theorem c2_counterexample :
    defaultImportOptions.skipErrors = false ∧
    applySchema c2Oracle c2Schema defaultImportOptions =
      ([⟨.admin, "SET FOREIGN_KEY_CHECKS = 0"⟩, ⟨.table, "CREATE TABLE bad"⟩],
        Except.ok
          ⟨false, [], [], [], [], [], [], [("table:bad", "boom")], []⟩) :=
  ⟨rfl, rfl⟩

/-- Claim C2 (amendment): when `skipErrors = false` and an object creation
fails, the remaining processing of that kind and of all later kinds stops
(first conjunct: the loop returns immediately with only that failure), and
the error propagating out of the `try` body is caught by `applySchema`'s
outer handler: the method resolves normally with the failure recorded in
the returned result and `success = false` — it is not re-raised to the
caller. -/
theorem c2_abort_recorded_not_rethrown :
    (∀ {α : Type} (oracle : Oracle) (objTag : String) (nameOf : α → String)
      (create : List QueryEvent → α → List QueryEvent × Option String)
      (hist : List QueryEvent) (item : α) (rest : List α)
      (evs : List QueryEvent) (e : String),
      create hist item = (evs, some e) →
      processItems oracle objTag nameOf create false hist (item :: rest) =
        ⟨evs, [], [(objTag ++ ":" ++ nameOf item, e)], some e⟩) ∧
    (∀ (oracle : Oracle) (schema : DatabaseSchema)
      (opts : SchemaImportOptions) (e : String),
      (applySchemaAux oracle schema opts).abort = some e →
      ∃ r, applySchema oracle schema opts =
          ((applySchemaAux oracle schema opts).events, Except.ok r) ∧
        r.success = false ∧ e ∈ r.errors.map Prod.snd) := by
  constructor
  · intro α oracle objTag nameOf create hist item rest evs e hc
    simp [processItems, hc]
  · intro oracle schema opts e h
    simp only [applySchema]
    rw [h]
    refine ⟨_, rfl, ?_, ?_⟩
    · cases hany : (applySchemaAux oracle schema opts).errors.any
          (fun p => p.2 == e) with
      | true =>
        simp only [hany, if_true]
        obtain ⟨p, hp, hpe⟩ := List.any_eq_true.mp hany
        cases herr : (applySchemaAux oracle schema opts).errors with
        | nil => rw [herr] at hp; simp at hp
        | cons a l => simp [herr]
      | false => simp [hany]
    · cases hany : (applySchemaAux oracle schema opts).errors.any
          (fun p => p.2 == e) with
      | true =>
        simp only [hany, if_true]
        obtain ⟨p, hp, hpe⟩ := List.any_eq_true.mp hany
        exact List.mem_map.mpr ⟨p, hp, eq_of_beq hpe⟩
      | false => simp [hany]

theorem c2_abort_recorded_not_rethrown_witness :
    (applySchemaAux c2Oracle c2Schema defaultImportOptions).abort =
      some "boom" ∧
    ∃ r, applySchema c2Oracle c2Schema defaultImportOptions =
        ((applySchemaAux c2Oracle c2Schema defaultImportOptions).events,
          Except.ok r) ∧
      r.success = false ∧ "boom" ∈ r.errors.map Prod.snd :=
  ⟨rfl,
    c2_abort_recorded_not_rethrown.2 c2Oracle c2Schema defaultImportOptions
      "boom" rfl⟩

/-- A schema and oracle for C3, identical in shape to the C2 setting:
the only table's creation statement fails. -/
def c3Schema : DatabaseSchema :=
  ⟨"db",
    [⟨"bad", [], [], [], "InnoDB", "utf8mb4_unicode_ci", "",
      some "CREATE TABLE bad"⟩],
    [], [], [], [], [], "utf8mb4", "utf8mb4_unicode_ci",
    .date ⟨"2024-01-01T00:00:00.000Z"⟩, none⟩

def c3Oracle : Oracle := fun _ q =>
  if q == "CREATE TABLE bad" then some "boom" else none

/-- Claim C3 (counterexample): a non-dry-run `applySchema` call in which a
table creation fails with `skipErrors = false` (the default) returns after
issuing only the disable-statement and the failing creation —
`SET FOREIGN_KEY_CHECKS = 1` is never issued on this path, because the
re-enable sits inside the `try` body and the propagating error jumps past
it into the `catch`. -/
theorem c3_counterexample :
    defaultImportOptions.dryRun = false ∧
    (applySchema c3Oracle c3Schema defaultImportOptions).1 =
      [⟨.admin, "SET FOREIGN_KEY_CHECKS = 0"⟩,
        ⟨.table, "CREATE TABLE bad"⟩] ∧
    (⟨.admin, "SET FOREIGN_KEY_CHECKS = 1"⟩ : QueryEvent) ∉
      (applySchema c3Oracle c3Schema defaultImportOptions).1 := by
  refine ⟨rfl, rfl, ?_⟩
  decide

/-- Claim C3 (amendment): for a `dryRun = false` call, the re-enabling
statement `SET FOREIGN_KEY_CHECKS = 1` is issued — as the last statement
of the run — on every path on which no error escapes the `try` body; on a
path where a creation failure with `skipErrors = false` aborts the apply
sequence it is not issued (see the counterexample). -/
theorem c3_reenable_on_nonabort_paths (oracle : Oracle)
    (schema : DatabaseSchema) (opts : SchemaImportOptions)
    (hdry : opts.dryRun = false)
    (hab : (applySchemaAux oracle schema opts).abort = none) :
    (applySchemaAux oracle schema opts).events.getLast? =
      some ⟨.admin, "SET FOREIGN_KEY_CHECKS = 1"⟩ := by
  unfold applySchemaAux at hab ⊢
  dsimp only at hab ⊢
  rw [fkStage1_events_of_none _ _ _ _ hdry hab]
  exact getLast?_append_singleton _ _

def w3Oracle : Oracle := fun _ _ => none

def w3Schema : DatabaseSchema :=
  ⟨"db",
    [⟨"user", [], [], [], "InnoDB", "utf8mb4_unicode_ci", "",
      some "CREATE TABLE user"⟩],
    [], [], [], [], [], "utf8mb4", "utf8mb4_unicode_ci",
    .date ⟨"2024-01-01T00:00:00.000Z"⟩, none⟩

theorem c3_reenable_on_nonabort_paths_witness :
    defaultImportOptions.dryRun = false ∧
    (applySchemaAux w3Oracle w3Schema defaultImportOptions).abort = none ∧
    (applySchemaAux w3Oracle w3Schema defaultImportOptions).events.getLast? =
      some ⟨.admin, "SET FOREIGN_KEY_CHECKS = 1"⟩ :=
  ⟨rfl, rfl,
    c3_reenable_on_nonabort_paths w3Oracle w3Schema defaultImportOptions
      rfl rfl⟩

/-! ## Claim C6: dependency ordering of the apply trace -/

/-- The trace order respected by `applySchema`: an earlier statement's
kind never ranks above a later one's. -/
def kindLE (a b : QueryEvent) : Prop := kindRank a.kind ≤ kindRank b.kind

theorem runSeq_kinds (oracle : Oracle) (k : QueryKind) :
    ∀ (hist : List QueryEvent) (qs : List String) (ev : QueryEvent),
      ev ∈ (runSeq oracle k hist qs).1 → ev.kind = k := by
  intro hist qs
  induction qs generalizing hist with
  | nil => intro ev hev; simp [runSeq] at hev
  | cons q qs ih =>
    intro ev hev
    unfold runSeq at hev
    cases horacle : oracle hist q with
    | some e =>
      rw [horacle] at hev
      simp at hev
      rw [hev]
    | none =>
      rw [horacle] at hev
      dsimp at hev
      rcases List.mem_cons.mp hev with h | h
      · rw [h]
      · exact ih _ ev h

theorem createTable_kinds (oracle : Oracle) (hist : List QueryEvent)
    (t : TableDefinition) (opts : SchemaImportOptions) :
    ∀ ev ∈ (createTable oracle hist t opts).1, ev.kind = .table := by
  intro ev hev
  unfold createTable at hev
  split at hev
  · simp at hev
  · exact runSeq_kinds oracle .table hist _ ev hev

theorem createView_kinds (oracle : Oracle) (hist : List QueryEvent)
    (v : ViewDefinition) (opts : SchemaImportOptions)
    (src tgt : Option String) :
    ∀ ev ∈ (createView oracle hist v opts src tgt).1, ev.kind = .view := by
  intro ev hev
  unfold createView at hev
  split at hev
  · simp at hev
  · exact runSeq_kinds oracle .view hist _ ev hev

theorem createFunction_kinds (oracle : Oracle) (hist : List QueryEvent)
    (f : FunctionDefinition) (opts : SchemaImportOptions) :
    ∀ ev ∈ (createFunction oracle hist f opts).1, ev.kind = .func := by
  intro ev hev
  unfold createFunction at hev
  split at hev
  · simp at hev
  · exact runSeq_kinds oracle .func hist _ ev hev

theorem createProcedure_kinds (oracle : Oracle) (hist : List QueryEvent)
    (p : ProcedureDefinition) (opts : SchemaImportOptions) :
    ∀ ev ∈ (createProcedure oracle hist p opts).1, ev.kind = .proc := by
  intro ev hev
  unfold createProcedure at hev
  split at hev
  · simp at hev
  · exact runSeq_kinds oracle .proc hist _ ev hev

theorem createTrigger_kinds (oracle : Oracle) (hist : List QueryEvent)
    (t : TriggerDefinition) (opts : SchemaImportOptions) :
    ∀ ev ∈ (createTrigger oracle hist t opts).1, ev.kind = .trig := by
  intro ev hev
  unfold createTrigger at hev
  split at hev
  · simp at hev
  · exact runSeq_kinds oracle .trig hist _ ev hev

theorem createEvent_kinds (oracle : Oracle) (hist : List QueryEvent)
    (e : EventDefinition) (opts : SchemaImportOptions) :
    ∀ ev ∈ (createEvent oracle hist e opts).1, ev.kind = .evt := by
  intro ev hev
  unfold createEvent at hev
  split at hev
  · simp at hev
  · dsimp only at hev
    split at hev
    · exact runSeq_kinds oracle .evt hist _ ev hev
    · exact runSeq_kinds oracle .evt hist _ ev hev

theorem processItems_kinds {α : Type} (oracle : Oracle) (objTag : String)
    (nameOf : α → String)
    (create : List QueryEvent → α → List QueryEvent × Option String)
    (skipErrors : Bool) (k : QueryKind)
    (hc : ∀ h x ev, ev ∈ (create h x).1 → ev.kind = k) :
    ∀ (hist : List QueryEvent) (items : List α) (ev : QueryEvent),
      ev ∈ (processItems oracle objTag nameOf create skipErrors hist
        items).events → ev.kind = k := by
  intro hist items
  induction items generalizing hist with
  | nil => intro ev hev; simp [processItems] at hev
  | cons x xs ih =>
    intro ev hev
    unfold processItems at hev
    rcases hcx : create hist x with ⟨evs, r⟩
    rw [hcx] at hev
    have hevs : ∀ ev ∈ evs, ev.kind = k := by
      intro ev h
      exact hc hist x ev (by rw [hcx]; exact h)
    cases r with
    | none =>
      dsimp at hev
      rcases List.mem_append.mp hev with h | h
      · exact hevs ev h
      · exact ih _ ev h
    | some e =>
      dsimp at hev
      split at hev
      · dsimp at hev
        rcases List.mem_append.mp hev with h | h
        · exact hevs ev h
        · exact ih _ ev h
      · dsimp at hev
        exact hevs ev hev

theorem runStage_kinds (ab : Option String) (enabled : Bool)
    (go : Unit → StageResult) (k : QueryKind)
    (hgo : ∀ ev ∈ (go ()).events, ev.kind = k) :
    ∀ ev ∈ (runStage ab enabled go).events, ev.kind = k := by
  intro ev hev
  unfold runStage at hev
  cases ab with
  | some e => simp at hev
  | none =>
    cases enabled with
    | true => exact hgo ev (by simpa using hev)
    | false => simp at hev

theorem fkStage0_kinds (oracle : Oracle) (opts : SchemaImportOptions) :
    ∀ ev ∈ (fkStage0 oracle opts).1, ev.kind = .admin := by
  intro ev hev
  unfold fkStage0 at hev
  split at hev
  · exact runSeq_kinds oracle .admin _ _ ev hev
  · simp at hev

theorem fkStage1_kinds (oracle : Oracle) (opts : SchemaImportOptions)
    (hist : List QueryEvent) (ab : Option String) :
    ∀ ev ∈ (fkStage1 oracle opts hist ab).1, ev.kind = .admin := by
  intro ev hev
  unfold fkStage1 at hev
  cases ab with
  | some e => simp at hev
  | none =>
    dsimp at hev
    split at hev
    · exact runSeq_kinds oracle .admin _ _ ev hev
    · simp at hev

theorem filter_kind_self (k : QueryKind) (hk : (k != QueryKind.admin) = true)
    (l : List QueryEvent) (h : ∀ ev ∈ l, ev.kind = k) :
    l.filter (fun ev => ev.kind != QueryKind.admin) = l :=
  List.filter_eq_self.mpr (fun ev hev => by rw [h ev hev]; exact hk)

theorem filter_kind_admin (l : List QueryEvent)
    (h : ∀ ev ∈ l, ev.kind = QueryKind.admin) :
    l.filter (fun ev => ev.kind != QueryKind.admin) = [] :=
  List.filter_eq_nil_iff.mpr (fun ev hev => by rw [h ev hev]; decide)

theorem pairwise_kind_homog (k : QueryKind) (l : List QueryEvent)
    (h : ∀ ev ∈ l, ev.kind = k) : List.Pairwise kindLE l :=
  List.pairwise_of_forall_mem_list (fun a ha b hb => by
    show kindRank a.kind ≤ kindRank b.kind
    rw [h a ha, h b hb])

theorem pairwise_kind_append (l₁ l₂ : List QueryEvent)
    (h₁ : List.Pairwise kindLE l₁) (h₂ : List.Pairwise kindLE l₂)
    (hc : ∀ a ∈ l₁, ∀ b ∈ l₂, kindLE a b) :
    List.Pairwise kindLE (l₁ ++ l₂) :=
  List.pairwise_append.mpr ⟨h₁, h₂, hc⟩

/-- The apply trace is built of eight kind-homogeneous blocks in the fixed
order: after dropping the admin toggles, the remaining statements are
sorted by object-kind rank. -/
theorem pairwise_filter_blocks
    (l0 lT lV lF lP lG lE l7 : List QueryEvent)
    (h0 : ∀ ev ∈ l0, ev.kind = .admin)
    (hT : ∀ ev ∈ lT, ev.kind = .table)
    (hV : ∀ ev ∈ lV, ev.kind = .view)
    (hF : ∀ ev ∈ lF, ev.kind = .func)
    (hP : ∀ ev ∈ lP, ev.kind = .proc)
    (hG : ∀ ev ∈ lG, ev.kind = .trig)
    (hE : ∀ ev ∈ lE, ev.kind = .evt)
    (h7 : ∀ ev ∈ l7, ev.kind = .admin) :
    List.Pairwise kindLE
      ((((((((l0 ++ lT) ++ lV) ++ lF) ++ lP) ++ lG) ++ lE) ++ l7).filter
        (fun ev => ev.kind != QueryKind.admin)) := by
  simp only [List.filter_append]
  rw [filter_kind_admin l0 h0, filter_kind_admin l7 h7,
    filter_kind_self .table (by decide) lT hT,
    filter_kind_self .view (by decide) lV hV,
    filter_kind_self .func (by decide) lF hF,
    filter_kind_self .proc (by decide) lP hP,
    filter_kind_self .trig (by decide) lG hG,
    filter_kind_self .evt (by decide) lE hE]
  simp only [List.nil_append, List.append_nil, List.append_assoc]
  have pE : List.Pairwise kindLE lE := pairwise_kind_homog .evt lE hE
  have pGE : List.Pairwise kindLE (lG ++ lE) := by
    refine pairwise_kind_append _ _ (pairwise_kind_homog .trig lG hG) pE ?_
    intro a ha b hb
    show kindRank a.kind ≤ kindRank b.kind
    rw [hG a ha, hE b hb]
    decide
  have pPGE : List.Pairwise kindLE (lP ++ (lG ++ lE)) := by
    refine pairwise_kind_append _ _ (pairwise_kind_homog .proc lP hP) pGE ?_
    intro a ha b hb
    show kindRank a.kind ≤ kindRank b.kind
    rw [hP a ha]
    rcases List.mem_append.mp hb with h | h
    · rw [hG b h]; decide
    · rw [hE b h]; decide
  have pFPGE : List.Pairwise kindLE (lF ++ (lP ++ (lG ++ lE))) := by
    refine pairwise_kind_append _ _ (pairwise_kind_homog .func lF hF) pPGE ?_
    intro a ha b hb
    show kindRank a.kind ≤ kindRank b.kind
    rw [hF a ha]
    rcases List.mem_append.mp hb with h | h
    · rw [hP b h]; decide
    rcases List.mem_append.mp h with h2 | h2
    · rw [hG b h2]; decide
    · rw [hE b h2]; decide
  have pVFPGE : List.Pairwise kindLE (lV ++ (lF ++ (lP ++ (lG ++ lE)))) := by
    refine pairwise_kind_append _ _ (pairwise_kind_homog .view lV hV) pFPGE ?_
    intro a ha b hb
    show kindRank a.kind ≤ kindRank b.kind
    rw [hV a ha]
    rcases List.mem_append.mp hb with h | h
    · rw [hF b h]; decide
    rcases List.mem_append.mp h with h2 | h2
    · rw [hP b h2]; decide
    rcases List.mem_append.mp h2 with h3 | h3
    · rw [hG b h3]; decide
    · rw [hE b h3]; decide
  refine pairwise_kind_append _ _ (pairwise_kind_homog .table lT hT) pVFPGE ?_
  intro a ha b hb
  show kindRank a.kind ≤ kindRank b.kind
  rw [hT a ha]
  rcases List.mem_append.mp hb with h | h
  · rw [hV b h]; decide
  rcases List.mem_append.mp h with h2 | h2
  · rw [hF b h2]; decide
  rcases List.mem_append.mp h2 with h3 | h3
  · rw [hP b h3]; decide
  rcases List.mem_append.mp h3 with h4 | h4
  · rw [hG b h4]; decide
  · rw [hE b h4]; decide

/-- Claim C6: over the trace of any `applySchema` run, once the admin
foreign-key toggles are set aside, statement kinds appear in nondecreasing
rank order — so no view-creation DDL is issued before every table-creation
DDL of the run, and the six object kinds are processed in the fixed order
tables → views → functions → procedures → triggers → events. -/
theorem c6_kind_order (oracle : Oracle) (schema : DatabaseSchema)
    (opts : SchemaImportOptions) :
    List.Pairwise kindLE
      ((applySchema oracle schema opts).1.filter
        (fun ev => ev.kind != QueryKind.admin)) := by
  show List.Pairwise kindLE
    ((applySchemaAux oracle schema opts).events.filter
      (fun ev => ev.kind != QueryKind.admin))
  unfold applySchemaAux
  dsimp only
  exact pairwise_filter_blocks _ _ _ _ _ _ _ _
    (fkStage0_kinds oracle opts)
    (runStage_kinds _ _ _ _ (processItems_kinds oracle _ _ _ _ _
      (fun h x ev hev => createTable_kinds oracle h x opts ev hev) _ _))
    (runStage_kinds _ _ _ _ (processItems_kinds oracle _ _ _ _ _
      (fun h x ev hev =>
        createView_kinds oracle h x opts _ _ ev hev) _ _))
    (runStage_kinds _ _ _ _ (processItems_kinds oracle _ _ _ _ _
      (fun h x ev hev => createFunction_kinds oracle h x opts ev hev) _ _))
    (runStage_kinds _ _ _ _ (processItems_kinds oracle _ _ _ _ _
      (fun h x ev hev => createProcedure_kinds oracle h x opts ev hev) _ _))
    (runStage_kinds _ _ _ _ (processItems_kinds oracle _ _ _ _ _
      (fun h x ev hev => createTrigger_kinds oracle h x opts ev hev) _ _))
    (runStage_kinds _ _ _ _ (processItems_kinds oracle _ _ _ _ _
      (fun h x ev hev => createEvent_kinds oracle h x opts ev hev) _ _))
    (fkStage1_kinds oracle opts _ _)

/-! ## Claim C8: applySpecificTables -/

theorem runSeq_noFail (oracle : Oracle) (k : QueryKind)
    (hno : ∀ hist q, oracle hist q = none) :
    ∀ (hist : List QueryEvent) (qs : List String),
      (runSeq oracle k hist qs).2 = none := by
  intro hist qs
  induction qs generalizing hist with
  | nil => rfl
  | cons q qs ih =>
    unfold runSeq
    rw [hno hist q]
    dsimp only
    rcases h : runSeq oracle k (hist ++ [⟨k, q⟩]) qs with ⟨evs, r⟩
    rw [h]
    dsimp only
    have := ih (hist ++ [⟨k, q⟩])
    rw [h] at this
    exact this

theorem createTable_noFail (oracle : Oracle) (hist : List QueryEvent)
    (t : TableDefinition) (opts : SchemaImportOptions)
    (hno : ∀ hist q, oracle hist q = none) :
    (createTable oracle hist t opts).2 = none := by
  unfold createTable
  split
  · rfl
  · exact runSeq_noFail oracle .table hno hist _

theorem fkStage0_noFail (oracle : Oracle) (opts : SchemaImportOptions)
    (hno : ∀ hist q, oracle hist q = none) (hdry : opts.dryRun = false) :
    fkStage0 oracle opts =
      ([⟨.admin, "SET FOREIGN_KEY_CHECKS = 0"⟩], none) := by
  simp [fkStage0, hdry, runSeq, hno]

theorem fkStage1_noFail (oracle : Oracle) (opts : SchemaImportOptions)
    (hist : List QueryEvent)
    (hno : ∀ hist q, oracle hist q = none) (hdry : opts.dryRun = false) :
    fkStage1 oracle opts hist none =
      ([⟨.admin, "SET FOREIGN_KEY_CHECKS = 1"⟩], none) := by
  simp [fkStage1, hdry, runSeq, hno]

theorem runStage_none_true (go : Unit → StageResult) :
    runStage none true go = go () := rfl

theorem runStage_none_false (go : Unit → StageResult) :
    runStage none false go = ⟨[], [], [], none⟩ := rfl

/-- A one-item kind loop whose creation succeeds: the single name is
recorded, no error, no abort. -/
theorem processItems_single_ok {α : Type} (oracle : Oracle) (objTag : String)
    (nameOf : α → String)
    (create : List QueryEvent → α → List QueryEvent × Option String)
    (skipErrors : Bool) (hist : List QueryEvent) (x : α)
    (hok : (create hist x).2 = none) :
    processItems oracle objTag nameOf create skipErrors hist [x] =
      ⟨(create hist x).1, [nameOf x], [], none⟩ := by
  unfold processItems
  rcases hcx : create hist x with ⟨evs, r⟩
  rw [hcx] at hok
  dsimp at hok
  subst hok
  simp [processItems]

/-- Claim C8: against a schema containing tables `user` and `order`,
`applySpecificTables(S, ['user'])` creates only `user`: the result has
`tablesCreated = ['user']`, `viewsCreated = []`, every other created list
empty, and every issued statement is a table statement or an admin
foreign-key toggle — no non-table object is processed. -/
theorem c8_apply_specific_tables (oracle : Oracle) (schema : DatabaseSchema)
    (u : TableDefinition)
    (hno : ∀ hist q, oracle hist q = none)
    (_horder : "order" ∈ schema.tables.map TableDefinition.name)
    (hu : schema.tables.filter
      (fun t => (["user"] : List String).contains t.name) = [u])
    (hname : u.name = "user") :
    ∃ evs, applySpecificTables oracle schema ["user"] defaultImportOptions =
        (evs, Except.ok ⟨true, ["user"], [], [], [], [], [], [], []⟩) ∧
      ∀ ev ∈ evs, ev.kind = QueryKind.table ∨ ev.kind = QueryKind.admin := by
  unfold applySpecificTables applyTables
  dsimp only [defaultImportOptions]
  rw [hu]
  unfold applySchema applySchemaAux
  rw [fkStage0_noFail oracle _ hno rfl]
  dsimp only
  rw [runStage_none_true]
  rw [processItems_single_ok oracle "table" TableDefinition.name _ false _ u
    (createTable_noFail oracle _ u _ hno), hname]
  dsimp only
  rw [runStage_none_false, runStage_none_false, runStage_none_false,
    runStage_none_false, runStage_none_false]
  dsimp only
  rw [fkStage1_noFail oracle _ _ hno rfl]
  refine ⟨_, rfl, ?_⟩
  intro ev hev
  simp only [List.append_nil, List.mem_append, List.mem_singleton] at hev
  rcases hev with (hev | hev) | hev
  · right; rw [hev]
  · left; exact createTable_kinds oracle _ u _ ev hev
  · right; rw [hev]

def w8User : TableDefinition :=
  ⟨"user", [], [], [], "InnoDB", "utf8mb4_unicode_ci", "",
    some "CREATE TABLE user"⟩

def w8Order : TableDefinition :=
  ⟨"order", [], [], [], "InnoDB", "utf8mb4_unicode_ci", "",
    some "CREATE TABLE order"⟩

def w8Schema : DatabaseSchema :=
  ⟨"db", [w8User, w8Order],
    [⟨"v1", "select 1", "NONE", true, "root", "DEFINER", "utf8mb4",
      "utf8mb4_unicode_ci"⟩],
    [], [], [], [], "utf8mb4", "utf8mb4_unicode_ci",
    .date ⟨"2024-01-01T00:00:00.000Z"⟩, none⟩

def w8Oracle : Oracle := fun _ _ => none

theorem c8_apply_specific_tables_witness :
    "order" ∈ w8Schema.tables.map TableDefinition.name ∧
    w8Schema.tables.filter
      (fun t => (["user"] : List String).contains t.name) = [w8User] ∧
    w8User.name = "user" ∧
    ∃ evs, applySpecificTables w8Oracle w8Schema ["user"]
        defaultImportOptions =
        (evs, Except.ok ⟨true, ["user"], [], [], [], [], [], [], []⟩) ∧
      ∀ ev ∈ evs, ev.kind = QueryKind.table ∨ ev.kind = QueryKind.admin :=
  ⟨by decide, rfl, rfl,
    c8_apply_specific_tables w8Oracle w8Schema w8User (fun _ _ => rfl)
      (by decide) rfl rfl⟩

/-! ## Claim C4: the JSON round trip -/

/-- What the round trip does to a `Date`-declared field: a genuine `Date`
comes back as its ISO string, a string comes back unchanged. -/
def eraseDateVal : DateVal → DateVal
  | .date d => .str d.iso
  | .str s => .str s

def eraseProcedureDates (p : ProcedureDefinition) : ProcedureDefinition :=
  { p with
    created := eraseDateVal p.created
    modified := eraseDateVal p.modified }

def eraseFunctionDates (f : FunctionDefinition) : FunctionDefinition :=
  { f with
    created := eraseDateVal f.created
    modified := eraseDateVal f.modified }

def eraseTriggerDates (t : TriggerDefinition) : TriggerDefinition :=
  { t with created := eraseDateVal t.created }

def eraseEventDates (e : EventDefinition) : EventDefinition :=
  { e with executeAt := e.executeAt.map eraseDateVal }

/-- The schema with every `Date`-typed field (the routines', triggers' and
events' timestamps and the extraction timestamp) replaced by its ISO
string; every other field untouched. -/
def eraseSchemaDates (s : DatabaseSchema) : DatabaseSchema :=
  { s with
    procedures := s.procedures.map eraseProcedureDates
    functions := s.functions.map eraseFunctionDates
    triggers := s.triggers.map eraseTriggerDates
    events := s.events.map eraseEventDates
    extractedAt := eraseDateVal s.extractedAt }

theorem decodeColumn_encodeColumn (c : ColumnDefinition) :
    decodeColumn (encodeColumn c) = some c := by
  rcases c with ⟨nm, ty, nu, dv, ex, co, cs, cl, ky⟩
  rcases dv <;> rcases cs <;> rcases cl <;> rcases ky <;> rfl

theorem decodeIndex_encodeIndex (i : IndexDefinition) :
    decodeIndex (encodeIndex i) = some i := by
  rcases i with ⟨nm, tn, cn, nu, it, si, cl, ca, co⟩
  rcases cl <;> rcases ca <;> rfl

theorem decodeForeignKey_encodeForeignKey (f : ForeignKeyDefinition) :
    decodeForeignKey (encodeForeignKey f) = some f := by
  rcases f with ⟨cn, tn, con, rtn, rcn, ur, dr⟩
  rfl

theorem decodeView_encodeView (v : ViewDefinition) :
    decodeView (encodeView v) = some v := by
  rcases v with ⟨nm, df, co, iu, de, st, cc, cl⟩
  rfl

theorem decodeProcedure_encodeProcedure (p : ProcedureDefinition) :
    decodeProcedure (encodeProcedure p) = some (eraseProcedureDates p) := by
  rcases p with ⟨nm, ty, df, de, cr, mo, sa, idt, st, pl, rt, co⟩
  rcases cr <;> rcases mo <;> rcases pl <;> rcases rt <;> rfl

theorem decodeFunction_encodeFunction (f : FunctionDefinition) :
    decodeFunction (encodeFunction f) = some (eraseFunctionDates f) := by
  rcases f with ⟨nm, ty, df, de, cr, mo, sa, idt, st, pl, rt, co⟩
  rcases cr <;> rcases mo <;> rcases pl <;> rfl

theorem decodeTrigger_encodeTrigger (t : TriggerDefinition) :
    decodeTrigger (encodeTrigger t) = some (eraseTriggerDates t) := by
  rcases t with ⟨nm, tn, ev, ti, st, de, cr, sm, cc, cl, dc⟩
  rcases cr <;> rfl

theorem decodeEvent_encodeEvent (e : EventDefinition) :
    decodeEvent (encodeEvent e) = some (eraseEventDates e) := by
  rcases e with ⟨nm, de, tz, ty, ea, iv, ifd, st, oc, df, co⟩
  rcases ea with _ | ⟨_ | _⟩ <;> rcases iv <;> rcases ifd <;> rfl

theorem decodeElems_map {α : Type} (f : Json → Option α) (g : α → Json)
    (e : α → α) (h : ∀ x, f (g x) = some (e x)) (l : List α) :
    decodeElems f (l.map g) = some (l.map e) := by
  induction l with
  | nil => rfl
  | cons x xs ih => simp [decodeElems, h x, ih]

theorem decodeList_columns (l : List ColumnDefinition) :
    decodeList decodeColumn (.arr (l.map encodeColumn)) = some l := by
  simpa using decodeElems_map decodeColumn encodeColumn id
    (fun c => decodeColumn_encodeColumn c) l

theorem decodeList_indexes (l : List IndexDefinition) :
    decodeList decodeIndex (.arr (l.map encodeIndex)) = some l := by
  simpa using decodeElems_map decodeIndex encodeIndex id
    (fun i => decodeIndex_encodeIndex i) l

theorem decodeList_foreignKeys (l : List ForeignKeyDefinition) :
    decodeList decodeForeignKey (.arr (l.map encodeForeignKey)) = some l := by
  simpa using decodeElems_map decodeForeignKey encodeForeignKey id
    (fun f => decodeForeignKey_encodeForeignKey f) l

theorem decodeTable_encodeTable (t : TableDefinition) :
    decodeTable (encodeTable t) = some t := by
  rcases t with ⟨nm, cols, idxs, fks, en, cl, co, cs⟩
  rcases cs <;>
    simp [decodeTable, encodeTable, lookupKey, encodeOptStr, asStr,
      asOptStr, decodeList_columns, decodeList_indexes,
      decodeList_foreignKeys]

theorem decodeList_tables (l : List TableDefinition) :
    decodeList decodeTable (.arr (l.map encodeTable)) = some l := by
  simpa using decodeElems_map decodeTable encodeTable id
    (fun t => decodeTable_encodeTable t) l

theorem decodeList_views (l : List ViewDefinition) :
    decodeList decodeView (.arr (l.map encodeView)) = some l := by
  simpa using decodeElems_map decodeView encodeView id
    (fun v => decodeView_encodeView v) l

theorem decodeList_procedures (l : List ProcedureDefinition) :
    decodeList decodeProcedure (.arr (l.map encodeProcedure)) =
      some (l.map eraseProcedureDates) :=
  decodeElems_map decodeProcedure encodeProcedure eraseProcedureDates
    (fun p => decodeProcedure_encodeProcedure p) l

theorem decodeList_functions (l : List FunctionDefinition) :
    decodeList decodeFunction (.arr (l.map encodeFunction)) =
      some (l.map eraseFunctionDates) :=
  decodeElems_map decodeFunction encodeFunction eraseFunctionDates
    (fun f => decodeFunction_encodeFunction f) l

theorem decodeList_triggers (l : List TriggerDefinition) :
    decodeList decodeTrigger (.arr (l.map encodeTrigger)) =
      some (l.map eraseTriggerDates) :=
  decodeElems_map decodeTrigger encodeTrigger eraseTriggerDates
    (fun t => decodeTrigger_encodeTrigger t) l

theorem decodeList_events (l : List EventDefinition) :
    decodeList decodeEvent (.arr (l.map encodeEvent)) =
      some (l.map eraseEventDates) :=
  decodeElems_map decodeEvent encodeEvent eraseEventDates
    (fun e => decodeEvent_encodeEvent e) l

theorem decodeSchema_encodeSchema (s : DatabaseSchema) :
    decodeSchema (encodeSchema s) = some (eraseSchemaDates s) := by
  rcases s with ⟨dn, ts, vs, ps, fs, trs, es, cs, cl, ea, ver⟩
  rcases ea <;> rcases ver <;>
    simp [decodeSchema, encodeSchema, lookupKey, encodeOptStr, asStr,
      asOptStr, asDateVal, encodeDateVal, decodeList_tables,
      decodeList_views, decodeList_procedures, decodeList_functions,
      decodeList_triggers, decodeList_events, eraseSchemaDates,
      eraseDateVal]

/-- Claim C4 (amendment): deserializing the JSON export of a schema gives
the schema back with every field preserved *except* the `Date`-typed
fields (the routines', triggers' and events' timestamps and the
extraction timestamp), which come back as their ISO-8601 string renderings
rather than `Date` values — `JSON.stringify` serializes a `Date` through
`toISOString` and `JSON.parse` never rebuilds one. -/
theorem c4_roundtrip_dates_as_strings (S : DatabaseSchema) :
    loadSchemaFromJSON (exportToJSON S) = some (eraseSchemaDates S) :=
  decodeSchema_encodeSchema S

/-- A freshly extracted schema: genuine `Date`s in the extraction
timestamp and in a function's `created`/`modified` fields. -/
def c4Schema : DatabaseSchema :=
  ⟨"db", [], [], [],
    [⟨"f", "FUNCTION", "RETURN 1", "root",
      .date ⟨"2023-05-06T07:08:09.000Z"⟩,
      .date ⟨"2023-05-06T07:08:09.000Z"⟩,
      "CONTAINS SQL", true, "DEFINER", none, "int(11)", ""⟩],
    [], [], "utf8mb4", "utf8mb4_unicode_ci",
    .date ⟨"2024-01-01T00:00:00.000Z"⟩, some "8.0"⟩

/-- Claim C4 (counterexample): on a schema whose extraction timestamp is a
genuine `Date`, the round trip is not the identity — the timestamp comes
back as the ISO string, not the `Date`. -/
theorem c4_counterexample :
    c4Schema.extractedAt = DateVal.date ⟨"2024-01-01T00:00:00.000Z"⟩ ∧
    loadSchemaFromJSON (exportToJSON c4Schema) ≠ some c4Schema ∧
    (loadSchemaFromJSON (exportToJSON c4Schema)).map
      DatabaseSchema.extractedAt =
      some (DateVal.str "2024-01-01T00:00:00.000Z") := by
  refine ⟨rfl, ?_, rfl⟩
  decide

/-! ## Claim C7: diff sensitivity of compareSchemas -/

theorem filter_not_contains_of_subset (l1 l2 : List String)
    (h : ∀ x ∈ l1, x ∈ l2) :
    l1.filter (fun n => !(l2.contains n)) = [] := by
  refine List.filter_eq_nil_iff.mpr ?_
  intro a ha
  simp
  exact h a ha

theorem dedupFirstAux_of_nodup (l : List String) :
    ∀ seen, l.Nodup → (∀ x ∈ l, x ∉ seen) → dedupFirstAux seen l = l := by
  induction l with
  | nil => intro seen _ _; rfl
  | cons x xs ih =>
    intro seen hnd hdis
    unfold dedupFirstAux
    have hx : seen.contains x = false := by
      cases hc : seen.contains x with
      | false => rfl
      | true =>
        exact absurd (List.mem_of_elem_eq_true hc)
          (hdis x (List.mem_cons_self x xs))
    rw [hx]
    simp only [Bool.false_eq_true, if_false]
    congr 1
    apply ih (x :: seen) hnd.of_cons
    intro y hy hmem
    rcases List.mem_cons.mp hmem with h | h
    · subst h
      exact (List.nodup_cons.mp hnd).1 hy
    · exact hdis y (List.mem_cons_of_mem x hy) h

theorem dedupFirst_of_nodup (l : List String) (h : l.Nodup) :
    dedupFirst l = l :=
  dedupFirstAux_of_nodup l [] h (fun _ _ => List.not_mem_nil _)

/-- Lookup by name (`find`) returns the unique element with that name when names
are distinct. -/
theorem find?_name_eq {α : Type} (nameOf : α → String) (l : List α)
    (hn : (l.map nameOf).Nodup) (u : α) (hu : u ∈ l) (n : String)
    (hname : nameOf u = n) :
    l.find? (fun v => nameOf v == n) = some u := by
  subst hname
  induction l with
  | nil => cases hu
  | cons a as ih =>
    rcases List.mem_cons.mp hu with h | h
    · subst h
      exact List.find?_cons_of_pos _ (by simp)
    · have hn' : (nameOf a :: as.map nameOf).Nodup := by simpa using hn
      have hnotin : nameOf a ∉ as.map nameOf := (List.nodup_cons.mp hn').1
      have hne : (nameOf a == nameOf u) = false := by
        apply beq_false_of_ne
        intro he
        exact hnotin (he ▸ List.mem_map_of_mem nameOf h)
      rw [List.find?_cons_of_neg _ (by simp [hne])]
      exact ih (by simpa using hn'.of_cons) h

/-- Diffing a table against itself yields nothing. -/
theorem tableDiffEntry_self (u : TableDefinition) (n : String) :
    tableDiffEntry u u n = none := by
  simp only [tableDiffEntry]
  have hadd : (dedupFirst (u.columns.map (·.name))).filter
      (fun c => !((dedupFirst (u.columns.map (·.name))).contains c)) = [] :=
    filter_not_contains_of_subset _ _ (fun x hx => hx)
  have hmod : (dedupFirst (u.columns.map (·.name))).filter
      (fun c => (dedupFirst (u.columns.map (·.name))).contains c &&
        (match u.columns.find? (fun cc => cc.name == c),
               u.columns.find? (fun cc => cc.name == c) with
         | some oldCol, some newCol => !(oldCol == newCol)
         | _, _ => false)) = [] := by
    refine List.filter_eq_nil_iff.mpr ?_
    intro a _
    cases hf : u.columns.find? (fun cc => cc.name == a) <;> simp [hf]
  rw [hadd, hmod]
  simp

/-- Diffing a table against itself-minus-one-column yields exactly that
column in `removedColumns`. -/
theorem tableDiffEntry_removed (t : TableDefinition)
    (cpre cpost : List ColumnDefinition) (c : ColumnDefinition)
    (hcols : t.columns = cpre ++ c :: cpost)
    (hnodupC : (t.columns.map (fun cc => cc.name)).Nodup) :
    tableDiffEntry t { t with columns := cpre ++ cpost } t.name =
      some ⟨t.name, [], [c.name], []⟩ := by
  simp only [tableDiffEntry]
  rw [hcols] at hnodupC
  rw [hcols]
  dsimp only
  have hsublist : List.Sublist ((cpre ++ cpost).map (fun cc => cc.name))
      ((cpre ++ c :: cpost).map (fun cc => cc.name)) :=
    ((List.sublist_cons_self c cpost).append_left cpre).map _
  have hnodupAB : ((cpre ++ cpost).map (fun cc => cc.name)).Nodup :=
    hnodupC.sublist hsublist
  rw [dedupFirst_of_nodup _ hnodupC, dedupFirst_of_nodup _ hnodupAB]
  have hadd : ((cpre ++ cpost).map (fun cc => cc.name)).filter
      (fun x => !(((cpre ++ c :: cpost).map (fun cc => cc.name)).contains x))
      = [] :=
    filter_not_contains_of_subset _ _ (fun x hx => hsublist.subset hx)
  have hmod : ((cpre ++ cpost).map (fun cc => cc.name)).filter
      (fun x => ((cpre ++ c :: cpost).map (fun cc => cc.name)).contains x &&
        (match (cpre ++ c :: cpost).find? (fun cc => cc.name == x),
               (cpre ++ cpost).find? (fun cc => cc.name == x) with
         | some oldCol, some newCol => !(oldCol == newCol)
         | _, _ => false)) = [] := by
    refine List.filter_eq_nil_iff.mpr ?_
    intro x hx
    obtain ⟨u, hu, rfl⟩ := List.mem_map.mp hx
    have humem : u ∈ cpre ++ c :: cpost := by
      rcases List.mem_append.mp hu with h | h
      · exact List.mem_append_left _ h
      · exact List.mem_append_right _ (List.mem_cons_of_mem c h)
    rw [find?_name_eq (fun cc => cc.name) (cpre ++ c :: cpost) hnodupC u
          humem _ rfl,
        find?_name_eq (fun cc => cc.name) (cpre ++ cpost) hnodupAB u hu
          _ rfl]
    simp
  have hnotmem : c.name ∉ (cpre ++ cpost).map (fun cc => cc.name) := by
    have h1 : (cpre.map (fun cc => cc.name) ++
        c.name :: cpost.map (fun cc => cc.name)).Nodup := by
      simpa using hnodupC
    have h2 := (List.nodup_append.mp h1).2.2
    have h3 : c.name ∉ cpre.map (fun cc => cc.name) := by
      intro hmem
      exact h2 hmem (List.mem_cons_self _ _)
    have h4 : c.name ∉ cpost.map (fun cc => cc.name) :=
      (List.nodup_cons.mp (List.nodup_append.mp h1).2.1).1
    rw [List.map_append]
    intro hmem
    rcases List.mem_append.mp hmem with h | h
    · exact h3 h
    · exact h4 h
  have hrem : ((cpre ++ c :: cpost).map (fun cc => cc.name)).filter
      (fun x => !(((cpre ++ cpost).map (fun cc => cc.name)).contains x))
      = [c.name] := by
    simp only [List.map_append, List.map_cons, List.filter_append,
      List.filter_cons]
    have h1 : (cpre.map (fun cc => cc.name)).filter
        (fun x => !((cpre.map (fun cc => cc.name) ++
          cpost.map (fun cc => cc.name)).contains x)) = [] :=
      filter_not_contains_of_subset _ _
        (fun x hx => List.mem_append_left _ hx)
    have h2 : (cpost.map (fun cc => cc.name)).filter
        (fun x => !((cpre.map (fun cc => cc.name) ++
          cpost.map (fun cc => cc.name)).contains x)) = [] :=
      filter_not_contains_of_subset _ _
        (fun x hx => List.mem_append_right _ hx)
    have hc : (!((cpre.map (fun cc => cc.name) ++
        cpost.map (fun cc => cc.name)).contains c.name)) = true := by
      have hm : c.name ∉ cpre.map (fun cc => cc.name) ++
          cpost.map (fun cc => cc.name) := by
        simpa [List.map_append] using hnotmem
      simpa using hm
    rw [h1, hc, h2]
    simp
  rw [hadd, hmod, hrem]
  simp

/-- Claim C7: removing exactly one column from one table is reported as
exactly one modified-table entry, with that column in `removedColumns`,
empty `addedColumns` and `modifiedColumns`, and all other comparison
lists empty. -/
theorem c7_single_column_removal
    (S S' : DatabaseSchema) (pre post : List TableDefinition)
    (t : TableDefinition) (cpre cpost : List ColumnDefinition)
    (c : ColumnDefinition)
    (hS : S.tables = pre ++ t :: post)
    (hcols : t.columns = cpre ++ c :: cpost)
    (hS' : S'.tables = pre ++ { t with columns := cpre ++ cpost } :: post)
    (hviews : S'.views = S.views)
    (hnodupT : (S.tables.map (fun v => v.name)).Nodup)
    (hnodupC : (t.columns.map (fun cc => cc.name)).Nodup) :
    compareSchemas S S' =
      ⟨[], [], [⟨t.name, [], [c.name], []⟩], [], [], []⟩ := by
  rw [hS] at hnodupT
  simp only [compareSchemas]
  rw [hS, hS', hviews]
  have hmapeq : (pre ++ { t with columns := cpre ++ cpost } :: post).map
      (fun v => v.name) = (pre ++ t :: post).map (fun v => v.name) := by
    simp
  rw [hmapeq, dedupFirst_of_nodup _ hnodupT]
  have hself : ((pre ++ t :: post).map (fun v => v.name)).filter
      (fun n => !(((pre ++ t :: post).map (fun v => v.name)).contains n))
      = [] :=
    filter_not_contains_of_subset _ _ (fun x hx => hx)
  rw [hself]
  have hnodupT' : ((pre ++ { t with columns := cpre ++ cpost } :: post).map
      (fun v => v.name)).Nodup := by rw [hmapeq]; exact hnodupT
  have hmt : ((pre ++ t :: post).map (fun v => v.name)).filterMap
      (fun tableName =>
        if ((pre ++ t :: post).map (fun v => v.name)).contains tableName then
          match (pre ++ t :: post).find? (fun v => v.name == tableName),
              (pre ++ { t with columns := cpre ++ cpost } :: post).find?
                (fun v => v.name == tableName) with
          | some oldTable, some newTable =>
            tableDiffEntry oldTable newTable tableName
          | _, _ => none
        else none) =
      [⟨t.name, [], [c.name], []⟩] := by
    have hnodupM : (List.map (fun v => v.name) pre ++ t.name ::
        List.map (fun v => v.name) post).Nodup := by simpa using hnodupT
    simp only [List.map_append, List.map_cons, List.filterMap_append,
      List.filterMap_cons]
    have hbody : ∀ (u : TableDefinition), u ∈ pre ++ t :: post →
        ∀ (w : TableDefinition),
        (pre ++ { t with columns := cpre ++ cpost } :: post).find?
          (fun v => v.name == u.name) = some w →
        (pre ++ t :: post).find? (fun v => v.name == u.name) = some u := by
      intro u hu w _
      exact find?_name_eq (fun v => v.name) _ (by simpa using hnodupT) u hu
        _ rfl
    have hpre : (pre.map (fun v => v.name)).filterMap
        (fun tableName =>
          if (List.map (fun v => v.name) pre ++ t.name ::
              List.map (fun v => v.name) post).contains tableName then
            match (pre ++ t :: post).find? (fun v => v.name == tableName),
                (pre ++ { t with columns := cpre ++ cpost } :: post).find?
                  (fun v => v.name == tableName) with
            | some oldTable, some newTable =>
              tableDiffEntry oldTable newTable tableName
            | _, _ => none
          else none) = [] := by
      refine List.filterMap_eq_nil_iff.mpr ?_
      intro n hn
      obtain ⟨u, hu, rfl⟩ := List.mem_map.mp hn
      have humem : u ∈ pre ++ t :: post := List.mem_append_left _ hu
      have hmem : u.name ∈ List.map (fun v => v.name) pre ++ t.name ::
          List.map (fun v => v.name) post := by
        have : u.name ∈ (pre ++ t :: post).map (fun v => v.name) :=
          List.mem_map_of_mem _ humem
        simpa using this
      have hcont : (List.map (fun v => v.name) pre ++ t.name ::
          List.map (fun v => v.name) post).contains u.name = true :=
        List.elem_eq_true_of_mem hmem
      have hfold : (pre ++ t :: post).find? (fun v => v.name == u.name) =
          some u :=
        find?_name_eq (fun v => v.name) _ (by simpa using hnodupT) u humem
          _ rfl
      have hfnew : (pre ++ { t with columns := cpre ++ cpost } ::
          post).find? (fun v => v.name == u.name) = some u :=
        find?_name_eq (fun v => v.name) _ hnodupT' u
          (List.mem_append_left _ hu) _ rfl
      simp only [hcont, eq_self_iff_true, if_true]
      rw [hfold, hfnew]
      exact tableDiffEntry_self u u.name
    have hpost : (post.map (fun v => v.name)).filterMap
        (fun tableName =>
          if (List.map (fun v => v.name) pre ++ t.name ::
              List.map (fun v => v.name) post).contains tableName then
            match (pre ++ t :: post).find? (fun v => v.name == tableName),
                (pre ++ { t with columns := cpre ++ cpost } :: post).find?
                  (fun v => v.name == tableName) with
            | some oldTable, some newTable =>
              tableDiffEntry oldTable newTable tableName
            | _, _ => none
          else none) = [] := by
      refine List.filterMap_eq_nil_iff.mpr ?_
      intro n hn
      obtain ⟨u, hu, rfl⟩ := List.mem_map.mp hn
      have humem : u ∈ pre ++ t :: post :=
        List.mem_append_right _ (List.mem_cons_of_mem t hu)
      have hmem : u.name ∈ List.map (fun v => v.name) pre ++ t.name ::
          List.map (fun v => v.name) post := by
        have : u.name ∈ (pre ++ t :: post).map (fun v => v.name) :=
          List.mem_map_of_mem _ humem
        simpa using this
      have hcont : (List.map (fun v => v.name) pre ++ t.name ::
          List.map (fun v => v.name) post).contains u.name = true :=
        List.elem_eq_true_of_mem hmem
      have hfold : (pre ++ t :: post).find? (fun v => v.name == u.name) =
          some u :=
        find?_name_eq (fun v => v.name) _ (by simpa using hnodupT) u humem
          _ rfl
      have hfnew : (pre ++ { t with columns := cpre ++ cpost } ::
          post).find? (fun v => v.name == u.name) = some u :=
        find?_name_eq (fun v => v.name) _ hnodupT' u
          (List.mem_append_right _ (List.mem_cons_of_mem _ hu)) _ rfl
      simp only [hcont, eq_self_iff_true, if_true]
      rw [hfold, hfnew]
      exact tableDiffEntry_self u u.name
    have hmidmem : t.name ∈ List.map (fun v => v.name) pre ++ t.name ::
        List.map (fun v => v.name) post :=
      List.mem_append_right _ (List.mem_cons_self _ _)
    have hcontm : (List.map (fun v => v.name) pre ++ t.name ::
        List.map (fun v => v.name) post).contains t.name = true :=
      List.elem_eq_true_of_mem hmidmem
    have hfoldm : (pre ++ t :: post).find? (fun v => v.name == t.name) =
        some t :=
      find?_name_eq (fun v => v.name) _ (by simpa using hnodupT) t
        (List.mem_append_right _ (List.mem_cons_self _ _)) _ rfl
    have hfnewm : (pre ++ { t with columns := cpre ++ cpost } ::
        post).find? (fun v => v.name == t.name) =
        some { t with columns := cpre ++ cpost } :=
      find?_name_eq (fun v => v.name) _ hnodupT'
        { t with columns := cpre ++ cpost }
        (List.mem_append_right _ (List.mem_cons_self _ _)) _ rfl
    rw [hpre]
    simp only [hcontm, eq_self_iff_true, if_true]
    rw [hfoldm, hfnewm, hpost]
    dsimp only
    rw [tableDiffEntry_removed t cpre cpost c hcols hnodupC]
    simp
  rw [hmt]
  have hvself : (dedupFirst (S.views.map (fun v => v.name))).filter
      (fun n => !((dedupFirst (S.views.map (fun v => v.name))).contains n))
      = [] :=
    filter_not_contains_of_subset _ _ (fun x hx => hx)
  rw [hvself]
  have hvmod : (dedupFirst (S.views.map (fun v => v.name))).filter
      (fun n => (dedupFirst (S.views.map (fun v => v.name))).contains n &&
        (match S.views.find? (fun v => v.name == n),
               S.views.find? (fun v => v.name == n) with
         | some oldView, some newView =>
           !(oldView.definition == newView.definition)
         | _, _ => false)) = [] := by
    refine List.filter_eq_nil_iff.mpr ?_
    intro n _
    cases hf : S.views.find? (fun v => v.name == n) <;> simp [hf]
  rw [hvmod]

def w7colA : ColumnDefinition :=
  ⟨"a", "int(11)", false, none, "auto_increment", "", none, none, some "PRI"⟩

def w7colB : ColumnDefinition :=
  ⟨"b", "varchar(32)", true, some "NULL", "", "", some "utf8mb4",
    some "utf8mb4_unicode_ci", none⟩

def w7t : TableDefinition :=
  ⟨"t", [w7colA, w7colB], [], [], "InnoDB", "utf8mb4_unicode_ci", "", none⟩

def w7S : DatabaseSchema :=
  ⟨"db", [w7t],
    [⟨"v", "select 1", "NONE", true, "root", "DEFINER", "utf8mb4",
      "utf8mb4_unicode_ci"⟩],
    [], [], [], [], "utf8mb4", "utf8mb4_unicode_ci", .str "2024", none⟩

def w7S' : DatabaseSchema :=
  ⟨"db", [{ w7t with columns := [w7colA] }], w7S.views, [], [], [], [],
    "utf8mb4", "utf8mb4_unicode_ci", .str "2024", none⟩

theorem c7_single_column_removal_witness :
    w7S.tables = [] ++ w7t :: [] ∧
    w7t.columns = [w7colA] ++ w7colB :: [] ∧
    w7S'.tables = [] ++ { w7t with columns := [w7colA] ++ [] } :: [] ∧
    w7S'.views = w7S.views ∧
    (w7S.tables.map (fun v => v.name)).Nodup ∧
    (w7t.columns.map (fun cc => cc.name)).Nodup ∧
    compareSchemas w7S w7S' =
      ⟨[], [], [⟨"t", [], ["b"], []⟩], [], [], []⟩ :=
  ⟨rfl, rfl, rfl, rfl, by decide, by decide,
    c7_single_column_removal w7S w7S' [] [] w7t [w7colA] [] w7colB
      rfl rfl rfl rfl (by decide) (by decide)⟩
